import Mathlib

/-!
Verification of the VM-to-ASM translator (`VM_to_ASM.go`).

The Go program is shallowly embedded below.  Pure string-producing functions
become Lean functions on `String`; the four package-level mutable variables
(`compLabelCounter`, `callCounter`, `currentFunctionName`, `fileName`) become
an explicit `Ctx` value threaded through the translation, except `fileName`,
which the Go program never assigns and which therefore stays a constant.
Go `int` values produced by `strconv.Atoi` are modelled as `Int`; the two
counters, which start at zero and are only ever incremented, are `Nat`.
-/

/-- Whitespace as tested by Go's `strings.TrimSpace` / `strings.Fields`
(`unicode.IsSpace`, restricted to the ASCII characters that can occur in a
text line). -/
def goSpace (c : Char) : Bool :=
  c = ' ' ∨ c = '\t' ∨ c = '\n' ∨ c = '\r' ∨ c = '\x0b' ∨ c = '\x0c'

/-- `strings.TrimSpace` on the character list. -/
def goTrimList (l : List Char) : List Char :=
  ((l.dropWhile goSpace).reverse.dropWhile goSpace).reverse

/-- Go `strings.TrimSpace`. -/
def goTrim (s : String) : String := ⟨goTrimList s.data⟩

/-- Accumulator loop for `strings.Fields`: split on whitespace runs,
dropping empty fields.  `cur` holds the current field reversed. -/
def goFieldsGo : List Char → List Char → List (List Char)
  | [], cur => if cur.isEmpty then [] else [cur.reverse]
  | c :: rest, cur =>
    if goSpace c then
      if cur.isEmpty then goFieldsGo rest [] else cur.reverse :: goFieldsGo rest []
    else goFieldsGo rest (c :: cur)

/-- Go `strings.Fields`. -/
def goFields (s : String) : List String :=
  (goFieldsGo s.data []).map fun l => ⟨l⟩

/-- The part of a line before the first `//`:
Go `strings.SplitN(cmd, "//", 2)[0]`. -/
def beforeCommentList : List Char → List Char
  | [] => []
  | '/' :: '/' :: _ => []
  | c :: rest => c :: beforeCommentList rest

/-- Strip an inline comment, as `vmCommandToAsm` does on entry. -/
def beforeComment (s : String) : String := ⟨beforeCommentList s.data⟩

/-- Go `strings.HasPrefix(s, "//")`, used to skip comment lines. -/
def startsSlashSlash (s : String) : Bool :=
  match s.data with
  | '/' :: '/' :: _ => true
  | _ => false

/-- Numeric value of a decimal digit character. -/
def digitVal (c : Char) : Nat := c.toNat - 48

/-- All characters are decimal digits. -/
def allDigits (l : List Char) : Bool := l.all fun c => '0' ≤ c ∧ c ≤ '9'

/-- Decimal value of a digit list, most significant first. -/
def natOfDigits (l : List Char) : Nat := l.foldl (fun a c => 10 * a + digitVal c) 0

/-- Go `strconv.Atoi`: optional single sign, then one or more decimal digits.
(The `int64` range check of the real `Atoi` is not modelled; the translator
only ever feeds the result to `%d` formatting and to a loop bound.) -/
def atoi (s : String) : Option Int :=
  match s.data with
  | [] => none
  | '-' :: rest =>
      if rest.isEmpty then none
      else if allDigits rest then some (-(natOfDigits rest : Int)) else none
  | '+' :: rest =>
      if rest.isEmpty then none
      else if allDigits rest then some ((natOfDigits rest : Int)) else none
  | l => if allDigits l then some ((natOfDigits l : Int)) else none

/-- ASCII upper-casing of one character, as `strings.ToUpper` does on the
command names `eq`/`lt`/`gt`. -/
def goToUpperChar (c : Char) : Char :=
  if 'a' ≤ c ∧ c ≤ 'z' then Char.ofNat (c.toNat - 32) else c

/-- Go `strings.ToUpper`. -/
def goToUpper (s : String) : String := ⟨s.data.map goToUpperChar⟩

/-- Package-level variable `fileName` of `VM_to_ASM.go` (line 12).  It is
declared but never assigned anywhere in the program: the `fileName :=
entry.Name()` inside `main`'s loop declares a fresh local that shadows it.
It therefore always holds the zero value `""`. -/
def fileName : String := ""

/-- The mutable package-level translation state: `compLabelCounter`,
`callCounter` (both start at 0 and are only incremented, hence `Nat`) and
`currentFunctionName` (declared at line 125 and never assigned). -/
structure Ctx where
  compLabelCounter : Nat
  callCounter : Nat
  currentFunctionName : String

/-- The zero values the Go runtime gives the package-level variables. -/
def ctx0 : Ctx := ⟨0, 0, ""⟩

/-- `translateReturnCommand` (lines 203-214). -/
def translateReturnCommand : String :=
  "@LCL\nD=M\n@5\nA=D-A\nD=M\n@R13\nM=D\n" ++
  "@SP\nA=M-1\nD=M\n@ARG\nA=M\nM=D\n" ++
  "D=A+1\n@SP\nM=D\n" ++
  "@LCL\nAM=M-1\nD=M\n@THAT\nM=D\n" ++
  "@LCL\nAM=M-1\nD=M\n@THIS\nM=D\n" ++
  "@LCL\nAM=M-1\nD=M\n@ARG\nM=D\n" ++
  "@LCL\nA=M-1\nD=M\n@LCL\nM=D\n" ++
  "@R13\nA=M\n0;JMP\n"

/-- `translateGotoCommand` (lines 215-222). -/
def translateGotoCommand (label : String) : String :=
  "@" ++ label ++ "\n0;JMP\n"

/-- `translateIfGotoCommand` (lines 224-237). -/
def translateIfGotoCommand (label : String) : String :=
  "@SP\nAM=M-1\nD=M\n@" ++ label ++ "\nD;JNE\n"

/-- `translateLabelCommand` (lines 239-242); reads the package-level
`currentFunctionName`, passed here explicitly. -/
def translateLabelCommand (label : String) (currentFunctionName : String) : String :=
  "(" ++ currentFunctionName ++ "$" ++ label ++ ")\n"

/-- One iteration of the save-registers loop in `translateCallCommand`. -/
def pushRegisterBlock (segment : String) : String :=
  "@" ++ segment ++ "\nD=M\n@SP\nA=M\nM=D\n@SP\nM=M+1\n"

/-- `translateCallCommand` (lines 244-296).  Reads and increments the
package-level `callCounter`; the error result is always `nil` in Go. -/
def translateCallCommand (functionName : String) (numArgs : Int) (ctx : Ctx) :
    (Except String String) × Ctx :=
  let returnLabel := functionName ++ "$ret." ++ toString ctx.callCounter
  let asm := "@" ++ returnLabel ++ "\nD=A\n@SP\nA=M\nM=D\n@SP\nM=M+1\n"
  let asm := ["LCL", "ARG", "THIS", "THAT"].foldl (fun a s => a ++ pushRegisterBlock s) asm
  let asm := asm ++ ("@SP\nD=M\n@" ++ toString numArgs ++ "\nD=D-A\n@5\nD=D-A\n@ARG\nM=D\n")
  let asm := asm ++ "@SP\nD=M\n@LCL\nM=D\n"
  let asm := asm ++ ("@" ++ functionName ++ "\n0;JMP\n")
  let asm := asm ++ ("(" ++ returnLabel ++ ")\n")
  (.ok asm, { ctx with callCounter := ctx.callCounter + 1 })

/-- `translateFunctionCommand` (lines 298-311).  The Go loop
`for i := 0; i < numLocals; i++` runs `numLocals.toNat` times; the error
result is always `nil`. -/
def translateFunctionCommand (functionName : String) (numLocals : Int) :
    Except String String :=
  .ok ("(" ++ functionName ++ ")\n" ++
    String.join (List.replicate numLocals.toNat "@SP\nA=M\nM=0\n@SP\nM=M+1\n"))

/-- `pushSegmentTemplate` (lines 349-354). -/
def pushSegmentTemplate (segment index : String) : String :=
  "@" ++ segment ++ "\nD=M\n@" ++ index ++ "\nA=D+A\nD=M\n@SP\nA=M\nM=D\n@SP\nM=M+1\n"

/-- `translatePushCommand` (lines 313-347). -/
def translatePushCommand (segment index fileName : String) : Except String String :=
  if segment = "constant" then
    .ok ("@" ++ index ++ "\nD=A\n@SP\nA=M\nM=D\n@SP\nM=M+1\n")
  else if segment = "local" then .ok (pushSegmentTemplate "LCL" index)
  else if segment = "argument" then .ok (pushSegmentTemplate "ARG" index)
  else if segment = "this" then .ok (pushSegmentTemplate "THIS" index)
  else if segment = "that" then .ok (pushSegmentTemplate "THAT" index)
  else if segment = "static" then
    .ok ("@" ++ fileName ++ "." ++ index ++ "\nD=M\n@SP\nA=M\nM=D\n@SP\nM=M+1\n")
  else if segment = "temp" then
    match atoi index with
    | none => .error ("invalid index for push temp command: " ++ index)
    | some offset =>
        .ok ("@R" ++ toString (5 + offset) ++ "\nD=M\n@SP\nA=M\nM=D\n@SP\nM=M+1\n")
  else if segment = "pointer" then
    if index = "0" then .ok ("@THIS\nD=M\n" ++ "@SP\nA=M\nM=D\n@SP\nM=M+1\n")
    else if index = "1" then .ok ("@THAT\nD=M\n" ++ "@SP\nA=M\nM=D\n@SP\nM=M+1\n")
    else .error ("invalid index for push pointer command: " ++ index)
  else .error ("unsupported push command: push " ++ segment ++ " " ++ index)

/-- The shared tail of `translatePopCommand` for the base-pointer segments
(lines 438-443). -/
def popViaR13 (baseAddr index : String) : String :=
  "@" ++ baseAddr ++ "\nD=M\n@" ++ index ++
  "\nD=D+A\n@R13\nM=D\n@SP\nAM=M-1\nD=M\n@R13\nA=M\nM=D\n"

/-- `translatePopCommand` (lines 391-444). -/
def translatePopCommand (segment index fileName : String) : Except String String :=
  if segment = "local" then .ok (popViaR13 "LCL" index)
  else if segment = "argument" then .ok (popViaR13 "ARG" index)
  else if segment = "this" then .ok (popViaR13 "THIS" index)
  else if segment = "that" then .ok (popViaR13 "THAT" index)
  else if segment = "temp" then
    match atoi index with
    | none => .error ("invalid index for pop temp command: " ++ index)
    | some tempIndex =>
        .ok ("@5\nD=A\n@" ++ toString tempIndex ++
          "\nD=D+A\n@R13\nM=D\n@SP\nAM=M-1\nD=M\n@R13\nA=M\nM=D\n")
  else if segment = "pointer" then
    if index = "0" then .ok "@SP\nAM=M-1\nD=M\n@THIS\nM=D\n"
    else if index = "1" then .ok "@SP\nAM=M-1\nD=M\n@THAT\nM=D\n"
    else .error ("invalid index for pop pointer command: " ++ index)
  else if segment = "static" then
    match atoi index with
    | none => .error ("invalid index for pop static command: " ++ index)
    | some staticIndex =>
        .ok ("@SP\nAM=M-1\nD=M\n@" ++ fileName ++ "." ++ toString staticIndex ++ "\nM=D\n")
  else .error ("unsupported segment for pop command: " ++ segment)

/-- `translateArithmeticCommand` (lines 356-373); the missing `default`
branch of the Go `switch` leaves `asm` at its zero value `""`. -/
def translateArithmeticCommand (cmd : String) : String :=
  if cmd = "add" then "@SP\nAM=M-1\nD=M\nA=A-1\nM=D+M\n"
  else if cmd = "sub" then "@SP\nAM=M-1\nD=M\nA=A-1\nM=M-D\n"
  else if cmd = "neg" then "@SP\nA=M-1\nM=-M\n"
  else if cmd = "and" then "@SP\nAM=M-1\nD=M\nA=A-1\nM=D&M\n"
  else if cmd = "or" then "@SP\nAM=M-1\nD=M\nA=A-1\nM=D|M\n"
  else if cmd = "not" then "@SP\nA=M-1\nM=!M\n"
  else ""

/-- The map lookup `jumpInstruction` of `translateComparisonCommand`
(lines 376-380); a missing key yields Go's zero value `""`. -/
def jumpInstructionFor (cmd : String) : String :=
  if cmd = "eq" then "JEQ" else if cmd = "lt" then "JLT"
  else if cmd = "gt" then "JGT" else ""

/-- The `trueLabel` synthesized at line 382. -/
def compTrueLabel (cmd : String) (labelCounter : Nat) : String :=
  goToUpper cmd ++ "_TRUE_" ++ toString labelCounter

/-- The `endLabel` synthesized at line 383. -/
def compEndLabel (cmd : String) (labelCounter : Nat) : String :=
  goToUpper cmd ++ "_END_" ++ toString labelCounter

/-- `translateComparisonCommand` (lines 375-389). -/
def translateComparisonCommand (cmd : String) (labelCounter : Nat) : String :=
  let trueLabel := compTrueLabel cmd labelCounter
  let endLabel := compEndLabel cmd labelCounter
  "@SP\nAM=M-1\nD=M\nA=A-1\nD=M-D\n@" ++ trueLabel ++ "\nD;" ++ jumpInstructionFor cmd ++
  "\n" ++ "@SP\nA=M-1\nM=0\n@" ++ endLabel ++ "\n0;JMP\n(" ++ trueLabel ++
  ")\n@SP\nA=M-1\nM=-1\n(" ++ endLabel ++ ")\n"

/-- The `switch parts[0]` dispatch of `vmCommandToAsm` (lines 135-201):
`cmd` is the comment-stripped, trimmed command text (used in error
messages), `parts` its whitespace fields. -/
def vmDispatch (cmd : String) (parts : List String) (ctx : Ctx) :
    (Except String String) × Ctx :=
  match parts with
  | [] => (.error "empty command line", ctx)
  | p0 :: rest =>
    if p0 = "add" ∨ p0 = "sub" ∨ p0 = "neg" ∨ p0 = "and" ∨ p0 = "or" ∨ p0 = "not" then
      (.ok (translateArithmeticCommand p0), ctx)
    else if p0 = "eq" ∨ p0 = "lt" ∨ p0 = "gt" then
      (.ok (translateComparisonCommand p0 ctx.compLabelCounter),
       { ctx with compLabelCounter := ctx.compLabelCounter + 1 })
    else if p0 = "push" ∨ p0 = "pop" then
      match rest with
      | [segment, index] =>
          if p0 = "push" then (translatePushCommand segment index fileName, ctx)
          else (translatePopCommand segment index fileName, ctx)
      | _ => (.error ("invalid " ++ p0 ++ " command: " ++ cmd), ctx)
    else if p0 = "function" ∨ p0 = "call" then
      match rest with
      | [functionName, countStr] =>
          match atoi countStr with
          | none => (.error ("invalid number for " ++ p0 ++ " command: " ++ countStr), ctx)
          | some numLocalsOrArgs =>
              if p0 = "function" then (translateFunctionCommand functionName numLocalsOrArgs, ctx)
              else translateCallCommand functionName numLocalsOrArgs ctx
      | _ => (.error ("invalid " ++ p0 ++ " command: " ++ cmd), ctx)
    else if p0 = "if-goto" then
      match rest with
      | [label] => (.ok (translateIfGotoCommand label), ctx)
      | _ => (.error ("invalid if-goto command: " ++ cmd), ctx)
    else if p0 = "goto" then
      match rest with
      | [label] => (.ok (translateGotoCommand label), ctx)
      | _ => (.error ("invalid goto command: " ++ cmd), ctx)
    else if p0 = "label" then
      match rest with
      | [label] => (.ok (translateLabelCommand label ctx.currentFunctionName), ctx)
      | _ => (.error ("invalid label command: " ++ cmd), ctx)
    else if p0 = "return" then
      match rest with
      | [] => (.ok translateReturnCommand, ctx)
      | _ => (.error ("invalid return command: " ++ cmd), ctx)
    else (.error ("unsupported command: " ++ cmd), ctx)

/-- `vmCommandToAsm` (lines 127-202), with the package-level state made
explicit: the result pairs Go's `(string, error)` with the updated state.
The reassignment `cmd = strings.TrimSpace(strings.SplitN(cmd, "//", 2)[0])`
at line 131 happens before the fields split at line 134. -/
def vmCommandToAsm (cmd : String) (ctx : Ctx) : (Except String String) × Ctx :=
  vmDispatch (goTrim (beforeComment cmd)) (goFields (goTrim (beforeComment cmd))) ctx

/-- One `WriteString` on the 4096-byte `bufio.Writer` that
`translateVMFileToASM` wraps around the shared output file, via structural
fuel (the fuel supplied by `bufWrite` always suffices, so the fuel-0 row is
unreachable).  State is (file contents already flushed, buffered bytes).
Mirrors `bufio.Writer.WriteString`: while the string exceeds the available
buffer space, either write it straight through (buffer empty) or fill the
buffer and flush it; afterwards the remainder stays in the buffer.  All
text involved is ASCII, so bytes and characters coincide. -/
def bufWriteGo : Nat → String → String → String → String × String
  | 0, file, buf, s => (file ++ buf ++ s, "")
  | fuel + 1, file, buf, s =>
    if buf.length + s.length ≤ 4096 then (file, buf ++ s)
    else if buf.length = 0 then (file ++ s, "")
    else
      bufWriteGo fuel (file ++ buf ++ ⟨s.data.take (4096 - buf.length)⟩) ""
        ⟨s.data.drop (4096 - buf.length)⟩

/-- `writer.WriteString(asm)` inside the unit loop. -/
def bufWrite (file buf s : String) : String × String :=
  bufWriteGo (buf.length + s.length + 1) file buf s

/-- The scanner loop of `translateVMFileToASM` (lines 95-119): per raw
line, trim, skip blanks and `//` lines, translate, and buffer the output.
The final row is `writer.Flush()`; on a command error the Go function
returns without flushing, so the buffered text is dropped while the file
keeps only what was already auto-flushed. -/
def translateLoop : List String → String → String → Ctx → (Except String Unit) × String × Ctx
  | [], file, buf, ctx => (.ok (), file ++ buf, ctx)
  | line :: rest, file, buf, ctx =>
    let vmCommand := goTrim line
    if vmCommand = "" ∨ startsSlashSlash vmCommand then translateLoop rest file buf ctx
    else
      match vmCommandToAsm vmCommand ctx with
      | (.error e, ctx') => (.error e, file, ctx')
      | (.ok asm, ctx') =>
          let fb := bufWrite file buf asm
          translateLoop rest fb.1 fb.2 ctx'

/-- `translateVMFileToASM` (lines 85-119): translate one unit's lines
through a fresh buffered writer onto the shared output file. -/
def translateVMFileToASM (unitLines : List String) (file : String) (ctx : Ctx) :
    (Except String Unit) × String × Ctx :=
  translateLoop unitLines file "" ctx

/-- A directory entry as `os.ReadDir` presents it: a name, whether it is a
directory, and (for the files modelled here) the text lines of its content. -/
structure Entry where
  name : String
  isDir : Bool
  unitLines : List String

/-- `checkForSysVM` (lines 76-83). -/
def checkForSysVM (files : List Entry) : Bool :=
  files.any fun e => ¬ e.isDir ∧ e.name = "Sys.vm"

/-- Reading `dir/Sys.vm` (line 49): the content of the (unique in a real
directory) non-directory entry named `Sys.vm`. -/
def sysLines (files : List Entry) : List String :=
  match files.find? (fun e => ¬ e.isDir ∧ e.name = "Sys.vm") with
  | some e => e.unitLines
  | none => []

/-- Go `strings.HasSuffix(name, ".vm")`. -/
def endsVm (s : String) : Bool := s.data.reverse.take 3 = ['m', 'v', '.']

/-- The `for _, entry := range files` loop of `main` (lines 58-70): every
non-directory `.vm` file other than `Sys.vm` is translated in enumeration
order; a failing unit is logged and skipped (`continue`), so later units
still run. -/
def translateUnits : List Entry → String → Ctx → String × Ctx
  | [], file, ctx => (file, ctx)
  | e :: rest, file, ctx =>
    if ¬ e.isDir ∧ endsVm e.name ∧ e.name ≠ "Sys.vm" then
      let r := translateVMFileToASM e.unitLines file ctx
      translateUnits rest r.2.1 r.2.2
    else translateUnits rest file ctx

/-- The fixed bootstrap block `main` writes and flushes first
(lines 33-38). -/
def bootstrapAsm : String := "@256\nD=A\n@SP\nM=D\n"

/-- The output file `main` produces (lines 14-73) as a function of the
directory listing: the bootstrap block, then `Sys.vm`'s translation when
that file exists (its error, if any, is only logged), then every other
`.vm` file in enumeration order. -/
def mainOutput (files : List Entry) : String :=
  let afterSys :=
    if checkForSysVM files then
      let r := translateVMFileToASM (sysLines files) bootstrapAsm ctx0
      (r.2.1, r.2.2)
    else (bootstrapAsm, ctx0)
  (translateUnits files afterSys.1 afterSys.2).1

/-- Modelled from the spec: §4.6's six-step description of translating
`call <name> <n>` — push the synthesized return label `<name>$ret.<c>`,
push LCL, ARG, THIS, THAT in that order, set ARG to SP − n − 5, set LCL
to SP, jump to the bare callee entry label, then declare the return
label. -/
def specCallBlock (name : String) (n : Int) (counter : Nat) : String :=
  String.join
    [ "@" ++ (name ++ ("$ret." ++ toString counter)) ++ "\nD=A\n@SP\nA=M\nM=D\n@SP\nM=M+1\n",
      pushRegisterBlock "LCL",
      pushRegisterBlock "ARG",
      pushRegisterBlock "THIS",
      pushRegisterBlock "THAT",
      "@SP\nD=M\n@" ++ toString n ++ "\nD=D-A\n@5\nD=D-A\n@ARG\nM=D\n",
      "@SP\nD=M\n@LCL\nM=D\n",
      "@" ++ name ++ "\n0;JMP\n",
      "(" ++ (name ++ ("$ret." ++ toString counter)) ++ ")\n" ]

/-- The first whitespace field of a raw command line, i.e. Go `parts[0]`
(`""` for a field-free line). -/
def headField (cmd : String) : String :=
  match goFields (goTrim (beforeComment cmd)) with
  | p0 :: _ => p0
  | [] => ""

/-- The dispatch at line 141 reaches `translateComparisonCommand` exactly
for these leading fields. -/
def isComparison (cmd : String) : Prop :=
  headField cmd = "eq" ∨ headField cmd = "lt" ∨ headField cmd = "gt"

instance (cmd : String) : Decidable (isComparison cmd) := by
  unfold isComparison
  infer_instance

/-- The `(trueLabel, endLabel)` pairs synthesized (at lines 382-383) for
the comparison commands of a run, in order, threading the translation
state exactly as `vmCommandToAsm` does. -/
def compPairs : List String → Ctx → List (String × String)
  | [], _ => []
  | c :: cs, ctx =>
    if isComparison c then
      (compTrueLabel (headField c) ctx.compLabelCounter,
       compEndLabel (headField c) ctx.compLabelCounter) ::
        compPairs cs (vmCommandToAsm c ctx).2
    else compPairs cs (vmCommandToAsm c ctx).2

/-- One unit's flushed contribution to the output file (empty when the
unit fails before filling the 4096-byte buffer). -/
def unitOut (ls : List String) (ctx : Ctx) : String :=
  (translateVMFileToASM ls "" ctx).2.1

/-- The translation state after attempting one unit. -/
def unitCtx (ls : List String) (ctx : Ctx) : Ctx :=
  (translateVMFileToASM ls "" ctx).2.2

/-- The concatenated contributions of `main`'s per-unit loop, together
with the final translation state: unit by unit, in enumeration order,
independent of earlier units' failures. -/
def unitsFold : List Entry → Ctx → String × Ctx
  | [], ctx => ("", ctx)
  | e :: rest, ctx =>
    if ¬ e.isDir ∧ endsVm e.name ∧ e.name ≠ "Sys.vm" then
      let r := unitsFold rest (unitCtx e.unitLines ctx)
      (unitOut e.unitLines ctx ++ r.1, r.2)
    else unitsFold rest ctx

/-- The text a unit's commands emit up to (excluding) its first failing
command — the lines the spec claims remain in the final output. -/
def emittedBeforeFailure : List String → Ctx → String
  | [], _ => ""
  | l :: ls, ctx =>
    if goTrim l = "" ∨ startsSlashSlash (goTrim l) then emittedBeforeFailure ls ctx
    else
      match vmCommandToAsm (goTrim l) ctx with
      | (.error _, _) => ""
      | (.ok asm, ctx') => asm ++ emittedBeforeFailure ls ctx'

/-- Modelled from the spec: destination field of a C-instruction of the
16-bit target machine (§1, §4); only the combinations the generator
emits are listed. -/
inductive Dst
  | a | d | m | am

/-- Modelled from the spec: computation field of a C-instruction; only
the computations the generator emits are listed. -/
inductive Cmp
  | zero | negOne | cA | cD | cM
  | aMinusOne | mMinusOne | mPlusOne
  | dPlusM | mMinusD | negM | notM | dAndM | dOrM | dPlusA

/-- Modelled from the spec: jump field of a C-instruction. -/
inductive Jmp
  | jnone | jgt | jeq | jlt | jne | jmp

/-- Modelled from the spec: one target-machine instruction line —
`@symbol` (numeric literals are their decimal text), a C-instruction, or
a `(symbol)` label declaration. -/
inductive Instr
  | ai (sym : String)
  | ci (dst : Option Dst) (cmp : Cmp) (jp : Jmp)
  | lbl (sym : String)

def renderDst : Option Dst → String
  | some .a => "A="
  | some .d => "D="
  | some .m => "M="
  | some .am => "AM="
  | none => ""

def renderCmp : Cmp → String
  | .zero => "0"
  | .negOne => "-1"
  | .cA => "A"
  | .cD => "D"
  | .cM => "M"
  | .aMinusOne => "A-1"
  | .mMinusOne => "M-1"
  | .mPlusOne => "M+1"
  | .dPlusM => "D+M"
  | .mMinusD => "M-D"
  | .negM => "-M"
  | .notM => "!M"
  | .dAndM => "D&M"
  | .dOrM => "D|M"
  | .dPlusA => "D+A"

def renderJmp : Jmp → String
  | .jnone => ""
  | .jgt => ";JGT"
  | .jeq => ";JEQ"
  | .jlt => ";JLT"
  | .jne => ";JNE"
  | .jmp => ";JMP"

/-- One emitted text line per instruction. -/
def renderInstr : Instr → String
  | .ai s => "@" ++ s ++ "\n"
  | .ci d c j => renderDst d ++ renderCmp c ++ renderJmp j ++ "\n"
  | .lbl s => "(" ++ s ++ ")\n"

/-- The text of an instruction block. -/
def renderProg (p : List Instr) : String := String.join (p.map renderInstr)

/- Instruction-level reading of each generated block.  Each definition
below lists, instruction by instruction, the text the corresponding Go
emitter produces; the `renderProg` equations in the stack-effect theorem
prove the correspondence. -/
/-- `@SP A=M M=D @SP M=M+1` — the shared push tail. -/
def pushTail : List Instr :=
  [.ai "SP", .ci (some .a) .cM .jnone, .ci (some .m) .cD .jnone,
   .ai "SP", .ci (some .m) .mPlusOne .jnone]

/-- `push constant i` (line 317). -/
def pushConstantI (index : String) : List Instr :=
  [.ai index, .ci (some .d) .cA .jnone] ++ pushTail

/-- `pushSegmentTemplate` (lines 349-354). -/
def pushSegmentTemplateI (segment index : String) : List Instr :=
  [.ai segment, .ci (some .d) .cM .jnone, .ai index, .ci (some .a) .dPlusA .jnone,
   .ci (some .d) .cM .jnone] ++ pushTail

/-- `push static i` (line 327). -/
def pushStaticI (fileName index : String) : List Instr :=
  [.ai (fileName ++ "." ++ index), .ci (some .d) .cM .jnone] ++ pushTail

/-- `push temp i` (line 333). -/
def pushTempI (offset : Int) : List Instr :=
  [.ai ("R" ++ toString (5 + offset)), .ci (some .d) .cM .jnone] ++ pushTail

/-- `push pointer 0/1` (lines 335-342). -/
def pushPointerI (base : String) : List Instr :=
  [.ai base, .ci (some .d) .cM .jnone] ++ pushTail

/-- `@R13 M=D @SP AM=M-1 D=M @R13 A=M M=D` — the shared pop tail, run
with the target address in D. -/
def popTail : List Instr :=
  [.ai "R13", .ci (some .m) .cD .jnone, .ai "SP", .ci (some .am) .mMinusOne .jnone,
   .ci (some .d) .cM .jnone, .ai "R13", .ci (some .a) .cM .jnone, .ci (some .m) .cD .jnone]

/-- `popViaR13` (lines 439-442). -/
def popViaR13I (baseAddr index : String) : List Instr :=
  [.ai baseAddr, .ci (some .d) .cM .jnone, .ai index, .ci (some .d) .dPlusA .jnone] ++ popTail

/-- `pop temp i` (lines 409-412). -/
def popTempI (tempIndex : Int) : List Instr :=
  [.ai "5", .ci (some .d) .cA .jnone, .ai (toString tempIndex),
   .ci (some .d) .dPlusA .jnone] ++ popTail

/-- `pop pointer 0/1` (lines 421-424). -/
def popPointerI (base : String) : List Instr :=
  [.ai "SP", .ci (some .am) .mMinusOne .jnone, .ci (some .d) .cM .jnone,
   .ai base, .ci (some .m) .cD .jnone]

/-- `pop static i` (lines 430-433). -/
def popStaticI (fileName : String) (staticIndex : Int) : List Instr :=
  [.ai "SP", .ci (some .am) .mMinusOne .jnone, .ci (some .d) .cM .jnone,
   .ai (fileName ++ "." ++ toString staticIndex), .ci (some .m) .cD .jnone]

/-- `@SP AM=M-1 D=M A=A-1 M=<op>` — the binary arithmetic shape
(lines 360-368). -/
def binArithI (c : Cmp) : List Instr :=
  [.ai "SP", .ci (some .am) .mMinusOne .jnone, .ci (some .d) .cM .jnone,
   .ci (some .a) .aMinusOne .jnone, .ci (some .m) c .jnone]

/-- `@SP A=M-1 M=<op>` — the unary shape (lines 364, 370). -/
def unArithI (c : Cmp) : List Instr :=
  [.ai "SP", .ci (some .a) .mMinusOne .jnone, .ci (some .m) c .jnone]

/-- `translateArithmeticCommand` at instruction level. -/
def arithI (cmd : String) : List Instr :=
  if cmd = "add" then binArithI .dPlusM
  else if cmd = "sub" then binArithI .mMinusD
  else if cmd = "neg" then unArithI .negM
  else if cmd = "and" then binArithI .dAndM
  else if cmd = "or" then binArithI .dOrM
  else if cmd = "not" then unArithI .notM
  else []

/-- The comparison block shape (lines 385-388), fixing the true label,
the predicate jump and the end label. -/
def compBlockI (t : String) (j : Jmp) (e : String) : List Instr :=
  [.ai "SP", .ci (some .am) .mMinusOne .jnone, .ci (some .d) .cM .jnone,
   .ci (some .a) .aMinusOne .jnone, .ci (some .d) .mMinusD .jnone,
   .ai t, .ci none .cD j,
   .ai "SP", .ci (some .a) .mMinusOne .jnone, .ci (some .m) .zero .jnone,
   .ai e, .ci none .zero .jmp,
   .lbl t,
   .ai "SP", .ci (some .a) .mMinusOne .jnone, .ci (some .m) .negOne .jnone,
   .lbl e]

/-- The jump mnemonic as an instruction field (map at lines 376-380). -/
def jmpFor (cmd : String) : Jmp :=
  if cmd = "eq" then .jeq else if cmd = "lt" then .jlt
  else if cmd = "gt" then .jgt else .jnone

/-- `translateComparisonCommand` at instruction level. -/
def compI (cmd : String) (labelCounter : Nat) : List Instr :=
  compBlockI (compTrueLabel cmd labelCounter) (jmpFor cmd) (compEndLabel cmd labelCounter)

/-- `@SP A=M M=0 @SP M=M+1` — one local-initialization step of
`translateFunctionCommand` (lines 305-308). -/
def push0Block : List Instr :=
  [.ai "SP", .ci (some .a) .cM .jnone, .ci (some .m) .zero .jnone,
   .ai "SP", .ci (some .m) .mPlusOne .jnone]

/-- `translateFunctionCommand` at instruction level. -/
def functionI (functionName : String) (numLocals : Int) : List Instr :=
  .lbl functionName :: (List.replicate numLocals.toNat push0Block).flatten

/-- Modelled from the spec: target-machine state — registers A and D and
the memory; §4's stack-effect table concerns `ram 0`, the stack-pointer
cell `SP`.  Word values are unbounded `Int`; 16-bit overflow plays no
role in the claimed stack-pointer deltas. -/
structure St where
  A : Int
  D : Int
  ram : Int → Int

/-- Memory update. -/
def wr (r : Int → Int) (a v : Int) : Int → Int := fun x => if x = a then v else r x

/-- Modelled from the spec: value of a C-instruction computation.  `!M`
is two's-complement bitwise negation. -/
def evalCmp (st : St) : Cmp → Int
  | .zero => 0
  | .negOne => -1
  | .cA => st.A
  | .cD => st.D
  | .cM => st.ram st.A
  | .aMinusOne => st.A - 1
  | .mMinusOne => st.ram st.A - 1
  | .mPlusOne => st.ram st.A + 1
  | .dPlusM => st.D + st.ram st.A
  | .mMinusD => st.ram st.A - st.D
  | .negM => -(st.ram st.A)
  | .notM => -(st.ram st.A) - 1
  | .dAndM => Int.land st.D (st.ram st.A)
  | .dOrM => Int.lor st.D (st.ram st.A)
  | .dPlusA => st.D + st.A

/-- Modelled from the spec: storing a computed value; an `M` write goes
to the address in A before the instruction (also when A is written by
the same instruction). -/
def applyDst (st : St) (d : Option Dst) (v : Int) : St :=
  match d with
  | none => st
  | some .a => { st with A := v }
  | some .d => { st with D := v }
  | some .m => { st with ram := wr st.ram st.A v }
  | some .am => { A := v, D := st.D, ram := wr st.ram st.A v }

/-- Modelled from the spec: the jump condition tests the computed value
against zero. -/
def jumpTaken (j : Jmp) (v : Int) : Bool :=
  match j with
  | .jnone => false
  | .jgt => v > 0
  | .jeq => v = 0
  | .jlt => v < 0
  | .jne => v ≠ 0
  | .jmp => true

/-- Effect of one instruction, ignoring control flow (used for jump-free
code); `env` resolves `@`-symbols — numeric literals to their value,
predefined register names to their fixed addresses, labels to their code
positions. -/
def execI (env : String → Int) (st : St) : Instr → St
  | .ai s => { st with A := env s }
  | .ci d c _ => applyDst st d (evalCmp st c)
  | .lbl _ => st

/-- Straight-line execution of a jump-free block. -/
def straightRun (env : String → Int) (p : List Instr) (st : St) : St :=
  p.foldl (execI env) st

/-- One step of the program-counter machine: `none` when the counter has
run off the program (halt).  A taken jump transfers to the code position
held in A (label declarations occupy a no-op slot, so label positions
line up). -/
def stepAt (env : String → Int) (p : List Instr) (st : St) (pc : Nat) :
    Option (St × Nat) :=
  match p[pc]? with
  | none => none
  | some (.ai s) => some ({ st with A := env s }, pc + 1)
  | some (.lbl _) => some (st, pc + 1)
  | some (.ci d c j) =>
      let v := evalCmp st c
      let st' := applyDst st d v
      if jumpTaken j v then some (st', st'.A.toNat) else some (st', pc + 1)

/-- Fuelled run of the program-counter machine. -/
def runPC (env : String → Int) (p : List Instr) : Nat → St × Nat → St × Nat
  | 0, s => s
  | fuel + 1, s =>
    match stepAt env p s.1 s.2 with
    | none => s
    | some s' => runPC env p fuel s'

/-- Run a block from its start with ample fuel. -/
def execBlock (env : String → Int) (p : List Instr) (st : St) : St :=
  (runPC env p (p.length + 2) (st, 0)).1

def noJump : Instr → Bool
  | .ci _ _ j => match j with | .jnone => true | _ => false
  | _ => true

/-- Instructions that cannot write memory. -/
def ramSafe : Instr → Bool
  | .ci d _ _ => match d with
    | some .m => false
    | some .am => false
    | _ => true
  | _ => true

/-- A concrete assembler environment for the stack-effect witness. -/
def wEnv : String → Int := fun s =>
  if s = "SP" then 0 else if s = "R13" then 13 else if s = "5" then 5
  else if s = "3" then 3 else if s = "EQ_TRUE_0" then 12
  else if s = "EQ_END_0" then 16 else 20

/-- A concrete machine state for the stack-effect witness. -/
def wSt : St := ⟨0, 0, fun _ => 300⟩

example : (vmCommandToAsm "push constant 7" ctx0).1 =
    .ok "@7\nD=A\n@SP\nA=M\nM=D\n@SP\nM=M+1\n" := by rfl

example : (vmCommandToAsm "eq" ctx0).2.compLabelCounter = 1 := by decide

example : (vmCommandToAsm "  add  // inline" ctx0).1 =
    .ok "@SP\nAM=M-1\nD=M\nA=A-1\nM=D+M\n" := by rfl

example : mainOutput [] = "@256\nD=A\n@SP\nM=D\n" := by rfl

example : mainOutput [⟨"A.vm", false, ["push constant 7"]⟩] =
    "@256\nD=A\n@SP\nM=D\n" ++ "@7\nD=A\n@SP\nA=M\nM=D\n@SP\nM=M+1\n" := by rfl

example : mainOutput [⟨"A.vm", false, ["push constant 7", "bad line"]⟩] =
    "@256\nD=A\n@SP\nM=D\n" := by rfl

lemma vmDispatch_ctx_unchanged_or_ok :
    ∀ (cmd : String) (parts : List String) (ctx : Ctx),
      (vmDispatch cmd parts ctx).2 = ctx ∨ ∃ a, (vmDispatch cmd parts ctx).1 = .ok a := by
  intro cmd parts ctx
  unfold vmDispatch
  repeat' split <;> try (exact Or.inl rfl)
  all_goals exact Or.inr ⟨_, rfl⟩

/-- C10: whenever translating a single command fails, the translation
context is unchanged: a failing command never increments the
comparison-label counter or the call counter (nor touches
`currentFunctionName`), so label numbering for later commands is
unaffected by rejected commands. -/
theorem failing_command_leaves_context_unchanged :
    ∀ (cmd : String) (ctx : Ctx) (e : String),
      (vmCommandToAsm cmd ctx).1 = .error e → (vmCommandToAsm cmd ctx).2 = ctx := by
  intro cmd ctx e h
  rcases vmDispatch_ctx_unchanged_or_ok (goTrim (beforeComment cmd))
    (goFields (goTrim (beforeComment cmd))) ctx with h2 | ⟨a, ha⟩
  · exact h2
  · exact Except.noConfusion (h.symm.trans ha)

/-- Witness for C10 at the concrete rejected command `bogus`. -/
theorem failing_command_leaves_context_unchanged_witness :
    (vmCommandToAsm "bogus" ctx0).2 = ctx0 :=
  failing_command_leaves_context_unchanged "bogus" ctx0 "unsupported command: bogus" rfl

lemma vmDispatch_currentFunctionName :
    ∀ (cmd : String) (parts : List String) (ctx : Ctx),
      (vmDispatch cmd parts ctx).2.currentFunctionName = ctx.currentFunctionName := by
  intro cmd parts ctx
  unfold vmDispatch
  repeat' split <;> try rfl

/-- C1: the spec says every `label` command is emitted qualified as
`<currentFunctionName>$<label>`, with `currentFunctionName` set by the
preceding `function` declaration, so equal bare labels in two different
functions cannot collide.  The code contradicts its own comment at
line 240 ("scoped to the current function name to ensure uniqueness"):
no statement of the program ever assigns `currentFunctionName` — in
particular `translateFunctionCommand` does not — so it keeps its zero
value `""` and every label is emitted as `($<label>)`.  First conjunct:
no command whatsoever changes `currentFunctionName`.  Remaining
conjuncts: in the run `function Foo 0`, `label L`, `function Bar 0`,
`label L`, both label commands emit the identical colliding text
`($L)`. -/
theorem label_commands_collide_across_functions :
    (∀ cmd ctx, (vmCommandToAsm cmd ctx).2.currentFunctionName = ctx.currentFunctionName) ∧
    (vmCommandToAsm "label L" (vmCommandToAsm "function Foo 0" ctx0).2).1 = .ok "($L)\n" ∧
    (vmCommandToAsm "label L"
      (vmCommandToAsm "function Bar 0"
        (vmCommandToAsm "label L" (vmCommandToAsm "function Foo 0" ctx0).2).2).2).1 =
      .ok "($L)\n" := by
  refine ⟨fun cmd ctx => vmDispatch_currentFunctionName _ _ ctx, by rfl, by rfl⟩

/-- C2: the spec says `push static i` / `pop static i` emit the memory
symbol `<unitName>.<i>`, giving each unit a private static namespace.
The code contradicts its own comments (lines 102-103 and 432): the
package-level `fileName` that `vmCommandToAsm` passes to the memory
translators is never assigned (the `fileName := entry.Name()` in `main`
declares a shadowing local), so every unit emits the same symbol
`.<i>`.  First conjunct: the emitted static symbol carries no unit name
for any index.  Second conjunct: units `A.vm` and `B.vm`, each holding
`push static 0`, produce bit-identical blocks addressing one shared
symbol `.0`. -/
theorem static_symbols_share_one_namespace :
    (∀ index, translatePushCommand "static" index fileName =
      .ok ("@." ++ index ++ "\nD=M\n@SP\nA=M\nM=D\n@SP\nM=M+1\n")) ∧
    mainOutput [⟨"A.vm", false, ["push static 0"]⟩, ⟨"B.vm", false, ["push static 0"]⟩] =
      bootstrapAsm ++ "@.0\nD=M\n@SP\nA=M\nM=D\n@SP\nM=M+1\n"
        ++ "@.0\nD=M\n@SP\nA=M\nM=D\n@SP\nM=M+1\n" :=
  ⟨fun _ => rfl, by rfl⟩

/-- C6 counterexample: the claim says every out-of-range integer index
for `pointer`/`temp` (for example `pointer 2`) is accepted and
translated; in fact `push pointer 2` is rejected with an error. -/
theorem pointer_two_rejected :
    vmCommandToAsm "push pointer 2" ctx0 =
      (.error "invalid index for push pointer command: 2", ctx0) := by rfl

/-- C6 (amended): for the `temp` segment the index is indeed not
validated beyond parsing as an integer — any integer, even negative or
out of range, is accepted — but for the `pointer` segment only the
literal index strings `0` and `1` are accepted, and every other index is
rejected with an error. -/
theorem temp_unvalidated_pointer_validated :
    ∀ index : String,
      ((∃ a, translatePushCommand "temp" index fileName = .ok a) ↔ (atoi index).isSome) ∧
      ((∃ a, translatePopCommand "temp" index fileName = .ok a) ↔ (atoi index).isSome) ∧
      ((∃ a, translatePushCommand "pointer" index fileName = .ok a) ↔
        (index = "0" ∨ index = "1")) ∧
      ((∃ a, translatePopCommand "pointer" index fileName = .ok a) ↔
        (index = "0" ∨ index = "1")) := by
  intro index
  refine ⟨?_, ?_, ?_, ?_⟩
  · simp only [translatePushCommand]
    cases h : atoi index <;> simp [h]
  · simp only [translatePopCommand]
    cases h : atoi index <;> simp [h]
  · simp only [translatePushCommand]
    by_cases h0 : index = "0" <;> by_cases h1 : index = "1" <;> simp [h0, h1]
  · simp only [translatePopCommand]
    by_cases h0 : index = "0" <;> by_cases h1 : index = "1" <;> simp [h0, h1]

/-- C7 counterexample: the claim says a `function`/`call` whose count
operand is not a non-negative integer (for example `function Foo -1`)
fails with a syntax error; in fact `strconv.Atoi` accepts `-1`, the
command is translated, and the zero-iteration local-init loop emits just
the entry label. -/
theorem function_negative_count_accepted :
    vmCommandToAsm "function Foo -1" ctx0 = (.ok "(Foo)\n", ctx0) := by rfl

/-- C7 (amended): a `function <name> <k>` or `call <name> <n>` command
is translated only when it has exactly 2 operands and its count operand
parses as a (possibly signed) integer; a non-integer count fails with a
syntax error, but negative integer counts are accepted rather than
rejected. -/
theorem function_call_arity_and_integer_count :
    (∀ cmd ctx p0 rest, goFields (goTrim (beforeComment cmd)) = p0 :: rest →
      (p0 = "function" ∨ p0 = "call") → rest.length ≠ 2 →
      (vmCommandToAsm cmd ctx).1 =
        .error ("invalid " ++ p0 ++ " command: " ++ goTrim (beforeComment cmd))) ∧
    (∀ cmd ctx p0 functionName countStr,
      goFields (goTrim (beforeComment cmd)) = [p0, functionName, countStr] →
      (p0 = "function" ∨ p0 = "call") →
      ((atoi countStr = none → (vmCommandToAsm cmd ctx).1 =
          .error ("invalid number for " ++ p0 ++ " command: " ++ countStr)) ∧
       (∀ k, atoi countStr = some k → ∃ a, (vmCommandToAsm cmd ctx).1 = .ok a))) := by
  constructor
  · intro cmd ctx p0 rest hf hp hlen
    unfold vmCommandToAsm
    rw [hf]
    rcases hp with hp | hp <;> subst hp <;>
      rcases rest with _ | ⟨a, _ | ⟨b, _ | ⟨c, rest⟩⟩⟩ <;>
        first
          | rfl
          | exact absurd rfl hlen
  · intro cmd ctx p0 functionName countStr hf hp
    unfold vmCommandToAsm
    rw [hf]
    rcases hp with hp | hp <;> subst hp <;>
      exact ⟨fun hnone => by simp [vmDispatch, hnone], fun k hk => by
        simp [vmDispatch, hk, translateCallCommand, translateFunctionCommand]⟩

/-- Witness for C7 at concrete commands: wrong arity, non-numeric count,
and an accepted negative count. -/
theorem function_call_arity_and_integer_count_witness :
    (vmCommandToAsm "call Foo" ctx0).1 = .error "invalid call command: call Foo" ∧
    (vmCommandToAsm "function Foo x" ctx0).1 = .error "invalid number for function command: x" ∧
    (∃ a, (vmCommandToAsm "function Foo -1" ctx0).1 = .ok a) := by
  refine ⟨?_, ?_, ?_⟩
  · exact function_call_arity_and_integer_count.1 "call Foo" ctx0 "call" ["Foo"]
      rfl (Or.inr rfl) (by decide)
  · exact (function_call_arity_and_integer_count.2 "function Foo x" ctx0 "function"
      "Foo" "x" rfl (Or.inl rfl)).1 rfl
  · exact (function_call_arity_and_integer_count.2 "function Foo -1" ctx0 "function"
      "Foo" "-1" rfl (Or.inl rfl)).2 (-1) rfl

/-- C3: translating `call <name> <n>` emits, in this exact order, the
return-address push for label `<name>$ret.<c>` (with `c` the current
call counter), the four caller base registers LCL, ARG, THIS, THAT, the
ARG recomputation `SP − n − 5`, `LCL = SP`, the unconditional jump to
the bare callee entry label, and the return-label declaration; and the
call counter is incremented exactly once. -/
theorem call_sequence_matches_spec :
    ∀ name n ctx, translateCallCommand name n ctx =
      (.ok (specCallBlock name n ctx.callCounter),
       { ctx with callCounter := ctx.callCounter + 1 }) := by
  intro name n ctx
  simp [translateCallCommand, specCallBlock, String.join, String.append_assoc]

/-- A digit list parses back: value of decimal digits, most significant
first (this is `natOfDigits` from the Atoi model, reused as the inverse
of the printer). -/
lemma natOfDigits_append_one (xs : List Char) (c : Char) :
    natOfDigits (xs ++ [c]) = 10 * natOfDigits xs + digitVal c := by
  simp [natOfDigits, List.foldl_append]

lemma digitVal_digitChar : ∀ m : Nat, m < 10 → digitVal (Nat.digitChar m) = m := by
  decide

/-- `Nat.toDigitsCore` with ample fuel only prepends to the accumulator. -/
lemma toDigitsCore_shift : ∀ (n fuel : Nat) (acc : List Char), n < fuel →
    Nat.toDigitsCore 10 fuel n acc = Nat.toDigitsCore 10 (n + 1) n [] ++ acc := by
  intro n
  induction n using Nat.strong_induction_on with
  | _ n ih =>
    intro fuel acc hf
    match fuel, hf with
    | f + 1, hf =>
      rw [Nat.toDigitsCore]
      conv_rhs => rw [Nat.toDigitsCore]
      by_cases h0 : n / 10 = 0
      · simp [h0]
      · simp only [h0, if_false]
        have hn : 0 < n := by
          rcases Nat.eq_zero_or_pos n with h | h
          · exact absurd (by simp [h]) h0
          · exact h
        have hlt : n / 10 < n := Nat.div_lt_self hn (by norm_num)
        have hle : n ≤ f := Nat.lt_succ_iff.mp hf
        rw [ih (n / 10) hlt f _ (lt_of_lt_of_le hlt hle),
            ih (n / 10) hlt n _ hlt, List.append_assoc]
        rfl

/-- Parsing the decimal printout of `n` gives back `n`. -/
lemma natOfDigits_toDigits : ∀ n : Nat, natOfDigits (Nat.toDigits 10 n) = n := by
  intro n
  induction n using Nat.strong_induction_on with
  | _ n ih =>
    rw [Nat.toDigits, Nat.toDigitsCore]
    by_cases h0 : n / 10 = 0
    · have hlt : n < 10 := (Nat.div_eq_zero_iff (by norm_num)).mp h0
      have hmod : n % 10 = n := Nat.mod_eq_of_lt hlt
      simp [h0, natOfDigits, hmod, digitVal_digitChar n hlt]
    · have hn : 0 < n := by
        rcases Nat.eq_zero_or_pos n with h | h
        · exact absurd (by simp [h]) h0
        · exact h
      have hlt : n / 10 < n := Nat.div_lt_self hn (by norm_num)
      simp only [h0, if_false]
      rw [toDigitsCore_shift (n / 10) n _ hlt]
      have ih2 : natOfDigits (Nat.toDigitsCore 10 (n / 10 + 1) (n / 10) []) = n / 10 :=
        ih (n / 10) hlt
      rw [natOfDigits_append_one, ih2,
          digitVal_digitChar (n % 10) (Nat.mod_lt n (by norm_num))]
      exact Nat.div_add_mod n 10

/-- The counter embedded at position 8 of a synthesized true-label
(`EQ_TRUE_`, `LT_TRUE_` and `GT_TRUE_` all have length 8). -/
lemma compTrueLabel_num :
    ∀ op : String, (op = "eq" ∨ op = "lt" ∨ op = "gt") → ∀ c : Nat,
      natOfDigits ((compTrueLabel op c).data.drop 8) = c := by
  intro op hop c
  rcases hop with h | h | h <;> subst h <;>
    exact natOfDigits_toDigits c

lemma comparison_step : ∀ (cmd : String) (ctx : Ctx), isComparison cmd →
    vmCommandToAsm cmd ctx =
      (.ok (translateComparisonCommand (headField cmd) ctx.compLabelCounter),
       { ctx with compLabelCounter := ctx.compLabelCounter + 1 }) := by
  intro cmd ctx hc
  unfold isComparison headField at hc
  unfold vmCommandToAsm headField
  cases hf : goFields (goTrim (beforeComment cmd)) with
  | nil => rw [hf] at hc; rcases hc with h | h | h <;> exact absurd h (by decide)
  | cons p0 rest =>
    rw [hf] at hc
    rcases hc with h | h | h <;> subst h <;> rfl

lemma vmDispatch_comp_mono :
    ∀ (cmd : String) (parts : List String) (ctx : Ctx),
      ctx.compLabelCounter ≤ (vmDispatch cmd parts ctx).2.compLabelCounter := by
  intro cmd parts ctx
  unfold vmDispatch
  repeat' split <;> try exact Nat.le_refl _
  all_goals exact Nat.le_succ _

lemma vm_comp_mono : ∀ (cmd : String) (ctx : Ctx),
    ctx.compLabelCounter ≤ (vmCommandToAsm cmd ctx).2.compLabelCounter :=
  fun cmd ctx => vmDispatch_comp_mono _ _ ctx

lemma compPairs_mem : ∀ (cmds : List String) (ctx : Ctx) (pr : String × String),
    pr ∈ compPairs cmds ctx →
    ∃ op k, (op = "eq" ∨ op = "lt" ∨ op = "gt") ∧ ctx.compLabelCounter ≤ k ∧
      pr = (compTrueLabel op k, compEndLabel op k) := by
  intro cmds
  induction cmds with
  | nil => intro ctx pr h; exact absurd h (List.not_mem_nil pr)
  | cons c cs ih =>
    intro ctx pr h
    rw [compPairs] at h
    by_cases hc : isComparison c
    · rw [if_pos hc] at h
      rcases List.mem_cons.mp h with h | h
      · exact ⟨headField c, ctx.compLabelCounter, hc, Nat.le_refl _, h⟩
      · obtain ⟨op, k, hop, hk, hpr⟩ := ih _ pr h
        exact ⟨op, k, hop, le_trans (vm_comp_mono c ctx) hk, hpr⟩
    · rw [if_neg hc] at h
      obtain ⟨op, k, hop, hk, hpr⟩ := ih _ pr h
      exact ⟨op, k, hop, le_trans (vm_comp_mono c ctx) hk, hpr⟩

lemma compPairs_pairwise : ∀ (cmds : List String) (ctx : Ctx),
    (compPairs cmds ctx).Pairwise (· ≠ ·) := by
  intro cmds
  induction cmds with
  | nil => intro ctx; exact List.Pairwise.nil
  | cons c cs ih =>
    intro ctx
    rw [compPairs]
    by_cases hc : isComparison c
    · rw [if_pos hc]
      refine List.Pairwise.cons ?_ (ih _)
      intro pr hpr heq
      obtain ⟨op, k, hop, hk, hpr2⟩ := compPairs_mem cs _ pr hpr
      subst hpr2
      have h1 : compTrueLabel (headField c) ctx.compLabelCounter = compTrueLabel op k :=
        congrArg Prod.fst heq
      have hnum : ctx.compLabelCounter = k := by
        have h2 := congrArg (fun s => natOfDigits (s.data.drop 8)) h1
        simp only [] at h2
        rwa [compTrueLabel_num _ hc _, compTrueLabel_num _ hop _] at h2
      rw [comparison_step c ctx hc] at hk
      simp only at hk
      omega
    · rw [if_neg hc]
      exact ih _

/-- C4: every `eq`/`lt`/`gt` command synthesizes the two labels
`<OP>_TRUE_<n>` / `<OP>_END_<n>` from the current comparison-label
counter and increments that counter exactly once, whichever predicate it
is (first conjunct); consequently the true/end label pairs generated for
the comparison commands of any run, started from any state, are pairwise
distinct across the entire run (second conjunct). -/
theorem comparison_labels_globally_unique :
    (∀ (cmd : String) (ctx : Ctx), isComparison cmd →
      vmCommandToAsm cmd ctx =
        (.ok (translateComparisonCommand (headField cmd) ctx.compLabelCounter),
         { ctx with compLabelCounter := ctx.compLabelCounter + 1 })) ∧
    (∀ (cmds : List String) (ctx : Ctx), (compPairs cmds ctx).Pairwise (· ≠ ·)) :=
  ⟨comparison_step, compPairs_pairwise⟩

/-- Witness for C4: one concrete comparison command and one concrete
run. -/
theorem comparison_labels_globally_unique_witness :
    vmCommandToAsm "eq" ctx0 =
      (.ok (translateComparisonCommand "eq" 0), ⟨1, 0, ""⟩) ∧
    (compPairs ["eq", "push constant 1", "lt", "eq"] ctx0).Pairwise (· ≠ ·) :=
  ⟨comparison_labels_globally_unique.1 "eq" ctx0 (Or.inl rfl),
   comparison_labels_globally_unique.2 ["eq", "push constant 1", "lt", "eq"] ctx0⟩

lemma bufWriteGo_append : ∀ (fuel : Nat) (f0 f buf s : String),
    bufWriteGo fuel (f0 ++ f) buf s =
      (f0 ++ (bufWriteGo fuel f buf s).1, (bufWriteGo fuel f buf s).2) := by
  intro fuel
  induction fuel with
  | zero => intro f0 f buf s; simp [bufWriteGo, String.append_assoc]
  | succ n ih =>
    intro f0 f buf s
    rw [bufWriteGo, bufWriteGo]
    by_cases h1 : buf.length + s.length ≤ 4096
    · simp [h1]
    · rw [if_neg h1, if_neg h1]
      by_cases h2 : buf.length = 0
      · simp [h2, String.append_assoc]
      · rw [if_neg h2, if_neg h2]
        simp only [String.append_assoc]
        exact ih f0 _ _ _

lemma bufWrite_append (f0 f buf s : String) :
    bufWrite (f0 ++ f) buf s =
      (f0 ++ (bufWrite f buf s).1, (bufWrite f buf s).2) :=
  bufWriteGo_append _ f0 f buf s

/-- When the text fits in the remaining buffer space, a write flushes
nothing. -/
lemma bufWrite_small (file buf s : String) (h : buf.length + s.length ≤ 4096) :
    bufWrite file buf s = (file, buf ++ s) := by
  rw [bufWrite, bufWriteGo, if_pos h]

lemma translateLoop_append : ∀ (ls : List String) (f0 f buf : String) (ctx : Ctx),
    translateLoop ls (f0 ++ f) buf ctx =
      ((translateLoop ls f buf ctx).1,
       f0 ++ (translateLoop ls f buf ctx).2.1,
       (translateLoop ls f buf ctx).2.2) := by
  intro ls
  induction ls with
  | nil => intro f0 f buf ctx; simp [translateLoop, String.append_assoc]
  | cons l rest ih =>
    intro f0 f buf ctx
    rw [translateLoop, translateLoop]
    by_cases hskip : goTrim l = "" ∨ startsSlashSlash (goTrim l)
    · rw [if_pos hskip, if_pos hskip]
      exact ih f0 f buf ctx
    · rw [if_neg hskip, if_neg hskip]
      cases hcmd : vmCommandToAsm (goTrim l) ctx with
      | mk res ctx' =>
        cases res with
        | error e => rfl
        | ok asm =>
            simp only [bufWrite_append f0 f buf asm]
            exact ih f0 _ _ ctx'

/-- `translateVMFileToASM` only ever appends to the shared output file:
its file result is the incoming file contents followed by a contribution
depending only on the unit's lines and the incoming state. -/
lemma translateVMFileToASM_append (ls : List String) (file : String) (ctx : Ctx) :
    translateVMFileToASM ls file ctx =
      ((translateVMFileToASM ls "" ctx).1,
       file ++ (translateVMFileToASM ls "" ctx).2.1,
       (translateVMFileToASM ls "" ctx).2.2) := by
  have h := translateLoop_append ls file "" "" ctx
  rwa [String.append_empty] at h

lemma translateUnits_fold : ∀ (entries : List Entry) (file : String) (ctx : Ctx),
    translateUnits entries file ctx =
      (file ++ (unitsFold entries ctx).1, (unitsFold entries ctx).2) := by
  intro entries
  induction entries with
  | nil => intro file ctx; simp [translateUnits, unitsFold]
  | cons e rest ih =>
    intro file ctx
    rw [translateUnits, unitsFold]
    by_cases hcond : ¬ e.isDir ∧ endsVm e.name ∧ e.name ≠ "Sys.vm"
    · rw [if_pos hcond, if_pos hcond]
      rw [translateVMFileToASM_append]
      dsimp only
      rw [ih]
      simp [unitOut, unitCtx, String.append_assoc]
    · rw [if_neg hcond, if_neg hcond]
      exact ih file ctx

lemma translateLoop_error_small :
    ∀ (ls : List String) (file buf : String) (ctx : Ctx) (e : String),
      buf.length + (emittedBeforeFailure ls ctx).length ≤ 4096 →
      (translateLoop ls file buf ctx).1 = .error e →
      (translateLoop ls file buf ctx).2.1 = file := by
  intro ls
  induction ls with
  | nil =>
    intro file buf ctx e _ herr
    exact absurd herr (by simp [translateLoop])
  | cons l rest ih =>
    intro file buf ctx e hlen herr
    rw [translateLoop] at herr ⊢
    rw [emittedBeforeFailure] at hlen
    by_cases hskip : goTrim l = "" ∨ startsSlashSlash (goTrim l)
    · rw [if_pos hskip] at herr ⊢
      rw [if_pos hskip] at hlen
      exact ih file buf ctx e hlen herr
    · rw [if_neg hskip] at herr ⊢
      rw [if_neg hskip] at hlen
      cases hcmd : vmCommandToAsm (goTrim l) ctx with
      | mk res ctx' =>
        cases res with
        | error e2 => rfl
        | ok asm =>
            rw [hcmd] at herr hlen
            dsimp only at herr hlen ⊢
            have hasm : buf.length + asm.length ≤ 4096 := by
              simp only [String.length_append] at hlen
              omega
            rw [bufWrite_small file buf asm hasm] at herr ⊢
            refine ih file (buf ++ asm) ctx' e ?_ herr
            simp only [String.length_append] at hlen ⊢
            omega

/-- C8 (amended): a parse failure aborts the remainder of the failing
unit only, but — contrary to the claim — the lines already emitted for
that unit do NOT remain in the output unless they had already overflowed
the 4096-byte writer buffer: for any unit whose emitted text up to the
failure fits in the buffer, the output file is exactly what it was
before the unit started (first conjunct).  Sibling units all still
proceed: the per-unit loop's output decomposes unit by unit, each unit
contributing independently of earlier units' failures (second
conjunct). -/
theorem unit_failure_drops_buffered_lines_but_siblings_proceed :
    (∀ (ls : List String) (file : String) (ctx : Ctx) (e : String),
      (emittedBeforeFailure ls ctx).length ≤ 4096 →
      (translateVMFileToASM ls file ctx).1 = .error e →
      (translateVMFileToASM ls file ctx).2.1 = file) ∧
    (∀ (entries : List Entry) (file : String) (ctx : Ctx),
      translateUnits entries file ctx =
        (file ++ (unitsFold entries ctx).1, (unitsFold entries ctx).2)) := by
  constructor
  · intro ls file ctx e hlen herr
    exact translateLoop_error_small ls file "" ctx e (by simpa using hlen) herr
  · exact translateUnits_fold

/-- Witness for C8: a concrete failing unit leaves the file exactly as
it was, and a concrete two-unit run decomposes into per-unit
contributions. -/
theorem unit_failure_drops_buffered_lines_but_siblings_proceed_witness :
    (translateVMFileToASM ["push constant 7", "bad line"] "XYZ" ctx0).2.1 = "XYZ" ∧
    translateUnits [⟨"A.vm", false, ["push constant 7", "bad line"]⟩,
        ⟨"B.vm", false, ["push constant 8"]⟩] "" ctx0 =
      ("" ++ (unitsFold [⟨"A.vm", false, ["push constant 7", "bad line"]⟩,
          ⟨"B.vm", false, ["push constant 8"]⟩] ctx0).1,
       (unitsFold [⟨"A.vm", false, ["push constant 7", "bad line"]⟩,
          ⟨"B.vm", false, ["push constant 8"]⟩] ctx0).2) :=
  ⟨unit_failure_drops_buffered_lines_but_siblings_proceed.1
      ["push constant 7", "bad line"] "XYZ" ctx0 "unsupported command: bad line"
      (by decide) rfl,
   unit_failure_drops_buffered_lines_but_siblings_proceed.2 _ "" ctx0⟩

/-- C8 counterexample: the claim says the lines already emitted for a
failing unit remain in the final output.  Unit `A.vm` successfully
translates `push constant 7` (first conjunct shows the emitted block)
and then fails on `bad line`; yet the final output contains only the
bootstrap block and sibling `B.vm`'s output — `A.vm`'s emitted lines
were dropped with the unflushed writer buffer. -/
theorem failing_unit_lines_do_not_remain :
    (vmCommandToAsm "push constant 7" ctx0).1 =
      .ok "@7\nD=A\n@SP\nA=M\nM=D\n@SP\nM=M+1\n" ∧
    mainOutput [⟨"A.vm", false, ["push constant 7", "bad line"]⟩,
        ⟨"B.vm", false, ["push constant 8"]⟩] =
      bootstrapAsm ++ "@8\nD=A\n@SP\nA=M\nM=D\n@SP\nM=M+1\n" :=
  ⟨rfl, rfl⟩

lemma find?_first_match : ∀ (l1 : List Entry) (e : Entry) (l2 : List Entry)
    (p : Entry → Bool), (∀ x ∈ l1, p x = false) → p e = true →
    (l1 ++ e :: l2).find? p = some e := by
  intro l1
  induction l1 with
  | nil => intro e l2 p _ hp; simp [List.find?, hp]
  | cons a rest ih =>
    intro e l2 p h1 hp
    have ha : p a = false := h1 a (by simp)
    rw [List.cons_append]
    simp only [List.find?, ha]
    exact ih e l2 p (fun x hx => h1 x (by simp [hx])) hp

lemma translateUnits_skip_sys : ∀ (l1 : List Entry) (e : Entry) (l2 : List Entry)
    (file : String) (ctx : Ctx), e.name = "Sys.vm" →
    translateUnits (l1 ++ e :: l2) file ctx = translateUnits (l1 ++ l2) file ctx := by
  intro l1
  induction l1 with
  | nil =>
    intro e l2 file ctx hname
    rw [List.nil_append, List.nil_append, translateUnits,
      if_neg (fun h => h.2.2 hname)]
  | cons a rest ih =>
    intro e l2 file ctx hname
    rw [List.cons_append, List.cons_append, translateUnits, translateUnits]
    by_cases hcond : ¬ a.isDir ∧ endsVm a.name ∧ a.name ≠ "Sys.vm"
    · rw [if_pos hcond, if_pos hcond]
      exact ih e l2 _ _ hname
    · rw [if_neg hcond, if_neg hcond]
      exact ih e l2 file ctx hname

/-- C9: the emitted stream always begins with the fixed bootstrap block
that sets the stack pointer to 256; when a `Sys.vm` file is present its
translated block comes immediately after the bootstrap and before every
other unit's output (first conjunct), and when it is absent the units
simply follow the bootstrap (second conjunct); moreover the position of
the `Sys.vm` entry in the directory enumeration is irrelevant — moving
it to the front changes nothing (third conjunct). -/
theorem bootstrap_then_sys_then_units :
    (∀ files : List Entry, checkForSysVM files = true →
      mainOutput files =
        bootstrapAsm ++ unitOut (sysLines files) ctx0 ++
          (unitsFold files (unitCtx (sysLines files) ctx0)).1) ∧
    (∀ files : List Entry, checkForSysVM files = false →
      mainOutput files = bootstrapAsm ++ (unitsFold files ctx0).1) ∧
    (∀ (l1 : List Entry) (e : Entry) (l2 : List Entry),
      e.isDir = false → e.name = "Sys.vm" →
      (∀ x ∈ l1, x.isDir = true ∨ x.name ≠ "Sys.vm") →
      mainOutput (l1 ++ e :: l2) = mainOutput (e :: (l1 ++ l2))) := by
  refine ⟨?_, ?_, ?_⟩
  · intro files hsys
    rw [mainOutput]
    simp only [hsys, if_true]
    rw [translateVMFileToASM_append]
    dsimp only
    rw [translateUnits_fold]
    simp [unitOut, unitCtx, String.append_assoc]
  · intro files hsys
    rw [mainOutput]
    simp only [hsys, Bool.false_eq_true, if_false]
    rw [translateUnits_fold]
  · intro l1 e l2 hdir hname hl1
    have hp : ∀ x ∈ l1, (fun y : Entry => decide (¬ y.isDir = true ∧ y.name = "Sys.vm")) x
        = false := by
      intro x hx
      rcases hl1 x hx with h | h <;> simp [h]
    have hpe : (fun y : Entry => decide (¬ y.isDir = true ∧ y.name = "Sys.vm")) e
        = true := by simp [hdir, hname]
    have hsys1 : checkForSysVM (l1 ++ e :: l2) = true := by
      simp only [checkForSysVM, List.any_eq_true]
      exact ⟨e, by simp, by simp [hdir, hname]⟩
    have hsys2 : checkForSysVM (e :: (l1 ++ l2)) = true := by
      simp only [checkForSysVM, List.any_eq_true]
      exact ⟨e, by simp, by simp [hdir, hname]⟩
    have hfind1 : sysLines (l1 ++ e :: l2) = e.unitLines := by
      rw [sysLines, find?_first_match l1 e l2 _ hp hpe]
    have hfind2 : sysLines (e :: (l1 ++ l2)) = e.unitLines := by
      rw [sysLines]
      simp only [List.find?, hpe]
    rw [mainOutput, mainOutput]
    simp only [hsys1, hsys2, if_true, hfind1, hfind2]
    rw [translateUnits_skip_sys l1 e l2 _ _ hname]
    have := translateUnits_skip_sys [] e (l1 ++ l2)
      (translateVMFileToASM e.unitLines bootstrapAsm ctx0).2.1
      (translateVMFileToASM e.unitLines bootstrapAsm ctx0).2.2 hname
    simp only [List.nil_append] at this
    rw [this]

/-- Witness for C9: concrete directory listings with and without
`Sys.vm`, including one where `Sys.vm` is enumerated last. -/
theorem bootstrap_then_sys_then_units_witness :
    mainOutput [⟨"Sys.vm", false, ["push constant 9"]⟩] =
      bootstrapAsm ++ unitOut ["push constant 9"] ctx0 ++
        (unitsFold [⟨"Sys.vm", false, ["push constant 9"]⟩]
          (unitCtx ["push constant 9"] ctx0)).1 ∧
    mainOutput [⟨"A.vm", false, ["push constant 7"]⟩] =
      bootstrapAsm ++ (unitsFold [⟨"A.vm", false, ["push constant 7"]⟩] ctx0).1 ∧
    mainOutput [⟨"A.vm", false, ["push constant 7"]⟩,
        ⟨"Sys.vm", false, ["push constant 9"]⟩] =
      mainOutput [⟨"Sys.vm", false, ["push constant 9"]⟩,
        ⟨"A.vm", false, ["push constant 7"]⟩] :=
  ⟨bootstrap_then_sys_then_units.1 [⟨"Sys.vm", false, ["push constant 9"]⟩] rfl,
   bootstrap_then_sys_then_units.2.1 [⟨"A.vm", false, ["push constant 7"]⟩] rfl,
   bootstrap_then_sys_then_units.2.2 [⟨"A.vm", false, ["push constant 7"]⟩]
     ⟨"Sys.vm", false, ["push constant 9"]⟩ [] rfl rfl
     (fun x hx => by rw [List.mem_singleton.mp hx]; exact Or.inr (by decide))⟩

example : renderProg (arithI "add") = translateArithmeticCommand "add" := by rfl

example (index : String) :
    renderProg (pushSegmentTemplateI "LCL" index) = pushSegmentTemplate "LCL" index := by
  apply String.ext
  simp [renderProg, renderInstr, pushSegmentTemplateI, pushTail, pushSegmentTemplate,
    String.join, renderDst, renderCmp, renderJmp]

example (n : Nat) :
    renderProg (compI "eq" n) = translateComparisonCommand "eq" n := by
  apply String.ext
  simp [renderProg, renderInstr, compI, compBlockI, jmpFor, translateComparisonCommand,
    jumpInstructionFor, String.join, renderDst, renderCmp, renderJmp]

@[simp] lemma wr_same (r : Int → Int) (a v : Int) : wr r a v a = v := by simp [wr]

lemma wr_ne (r : Int → Int) (a v x : Int) (h : x ≠ a) : wr r a v x = r x := by
  simp [wr, h]

lemma runPC_straight : ∀ (q p : List Instr) (env : String → Int) (st : St) (pc fuel : Nat),
    p.drop pc = q → (∀ i ∈ q, noJump i = true) → q.length < fuel →
    (runPC env p fuel (st, pc)).1 = straightRun env q st := by
  intro q
  induction q with
  | nil =>
    intro p env st pc fuel hdrop _ hfuel
    match fuel, hfuel with
    | f + 1, _ =>
      have hget : p[pc]? = none := by
        rw [List.getElem?_eq_none_iff]
        by_contra hlt
        push_neg at hlt
        have := List.drop_eq_getElem_cons hlt
        rw [hdrop] at this
        exact List.noConfusion this
      rw [runPC]
      simp [stepAt, hget, straightRun]
  | cons i q' ih =>
    intro p env st pc fuel hdrop hnj hfuel
    match fuel, hfuel with
    | f + 1, hfuel =>
      have hget0 : (p.drop pc)[0]? = some i := by rw [hdrop]; simp
      have hget : p[pc]? = some i := by
        rw [List.getElem?_drop] at hget0
        simpa using hget0
      have hdrop' : p.drop (pc + 1) = q' := by
        have h2 : (p.drop pc).drop 1 = p.drop (pc + 1) := List.drop_drop 1 pc p
        rw [hdrop] at h2
        exact h2.symm ▸ rfl
      have hq' : ∀ x ∈ q', noJump x = true := fun x hx => hnj x (List.mem_cons_of_mem i hx)
      have hfuel' : q'.length < f := by
        simp only [List.length_cons] at hfuel
        omega
      rw [runPC]
      have hrest : straightRun env (i :: q') st = straightRun env q' (execI env st i) := by
        simp [straightRun]
      rw [hrest]
      cases i with
      | ai s =>
          simp only [stepAt, hget]
          exact ih p env _ (pc + 1) f hdrop' hq' hfuel'
      | lbl s =>
          simp only [stepAt, hget]
          exact ih p env _ (pc + 1) f hdrop' hq' hfuel'
      | ci d c j =>
          have hj : j = .jnone := by
            have := hnj (.ci d c j) (List.mem_cons_self _ _)
            cases j <;> simp [noJump] at this <;> rfl
          subst hj
          simp only [stepAt, hget, jumpTaken, if_false, Bool.false_eq_true]
          exact ih p env _ (pc + 1) f hdrop' hq' hfuel'

/-- For a jump-free block the program-counter machine coincides with
straight-line execution. -/
lemma execBlock_straight (env : String → Int) (p : List Instr) (st : St)
    (hnj : ∀ i ∈ p, noJump i = true) :
    execBlock env p st = straightRun env p st := by
  rw [execBlock]
  exact runPC_straight p p env st 0 (p.length + 2) rfl hnj (by omega)

lemma execI_ramSafe (env : String → Int) (st : St) (i : Instr) (h : ramSafe i = true) :
    (execI env st i).ram = st.ram := by
  cases i with
  | ai s => rfl
  | lbl s => rfl
  | ci d c j =>
    cases d with
    | none => rfl
    | some dd => cases dd <;> first
        | rfl
        | simp [ramSafe] at h

lemma straightRun_ramSafe : ∀ (p : List Instr) (env : String → Int) (st : St),
    (∀ i ∈ p, ramSafe i = true) → (straightRun env p st).ram = st.ram := by
  intro p
  induction p with
  | nil => intro env st _; rfl
  | cons i rest ih =>
    intro env st h
    have h1 : straightRun env (i :: rest) st = straightRun env rest (execI env st i) := by
      simp [straightRun]
    rw [h1, ih env _ (fun x hx => h x (List.mem_cons_of_mem i hx)),
      execI_ramSafe env st i (h i (List.mem_cons_self _ _))]

lemma straightRun_append (env : String → Int) (p q : List Instr) (st : St) :
    straightRun env (p ++ q) st = straightRun env q (straightRun env p st) := by
  simp [straightRun, List.foldl_append]

lemma pushTail_delta (env : String → Int) (st : St) (hSP : env "SP" = 0)
    (h0 : st.ram 0 ≠ 0) :
    (straightRun env pushTail st).ram 0 = st.ram 0 + 1 := by
  simp [pushTail, straightRun, execI, applyDst, evalCmp, hSP, wr, Ne.symm h0]

lemma push0Block_delta (env : String → Int) (st : St) (hSP : env "SP" = 0)
    (h0 : st.ram 0 ≠ 0) :
    (straightRun env push0Block st).ram 0 = st.ram 0 + 1 := by
  simp [push0Block, straightRun, execI, applyDst, evalCmp, hSP, wr, Ne.symm h0]

/-- A push block is a memory-silent prefix followed by `pushTail`. -/
lemma push_block_delta (env : String → Int) (pre : List Instr) (st : St)
    (hpre : ∀ i ∈ pre, ramSafe i = true) (hSP : env "SP" = 0) (h0 : st.ram 0 ≠ 0) :
    (straightRun env (pre ++ pushTail) st).ram 0 = st.ram 0 + 1 := by
  rw [straightRun_append]
  have hram : (straightRun env pre st).ram = st.ram := straightRun_ramSafe pre env st hpre
  rw [pushTail_delta env _ hSP (by rw [hram]; exact h0), hram]

/-- `popTail` run with the target address (nonzero) in D decrements the
stack pointer. -/
lemma popTail_delta (env : String → Int) (st : St) (hSP : env "SP" = 0)
    (hR : env "R13" = 13) (hD : st.D ≠ 0) :
    (straightRun env popTail st).ram 0 = st.ram 0 - 1 := by
  simp [popTail, straightRun, execI, applyDst, evalCmp, hSP, hR, wr, Ne.symm hD]

lemma popViaR13_delta (env : String → Int) (b ix : String) (st : St)
    (hSP : env "SP" = 0) (hR : env "R13" = 13)
    (hT : st.ram (env b) + env ix ≠ 0) :
    (straightRun env (popViaR13I b ix) st).ram 0 = st.ram 0 - 1 := by
  rw [popViaR13I, straightRun_append]
  have hpre : straightRun env
      [.ai b, .ci (some .d) .cM .jnone, .ai ix, .ci (some .d) .dPlusA .jnone] st =
      { A := env ix, D := st.ram (env b) + env ix, ram := st.ram } := rfl
  rw [hpre]
  exact popTail_delta env _ hSP hR hT

lemma popTemp_delta (env : String → Int) (k : Int) (st : St)
    (hSP : env "SP" = 0) (hR : env "R13" = 13) (h5 : env "5" = 5)
    (hIx : env (toString k) = k) (hT : (5:Int) + k ≠ 0) :
    (straightRun env (popTempI k) st).ram 0 = st.ram 0 - 1 := by
  rw [popTempI, straightRun_append]
  have hpre : straightRun env
      [.ai "5", .ci (some .d) .cA .jnone, .ai (toString k), .ci (some .d) .dPlusA .jnone] st =
      { A := env (toString k), D := env "5" + env (toString k), ram := st.ram } := rfl
  rw [hpre]
  refine popTail_delta env _ hSP hR ?_
  simpa [h5, hIx] using hT

/-- The direct-pop shape `@SP AM=M-1 D=M @sym M=D` used by pop
pointer/static: the stack pointer goes down by one as long as the target
symbol does not resolve to the SP cell itself. -/
lemma popDirect_delta (env : String → Int) (sym : String) (st : St)
    (hSP : env "SP" = 0) (hsym : env sym ≠ 0) :
    (straightRun env
      [.ai "SP", .ci (some .am) .mMinusOne .jnone, .ci (some .d) .cM .jnone,
       .ai sym, .ci (some .m) .cD .jnone] st).ram 0 = st.ram 0 - 1 := by
  simp [straightRun, execI, applyDst, evalCmp, hSP, wr, Ne.symm hsym]

lemma binArith_delta (env : String → Int) (c : Cmp) (st : St)
    (hSP : env "SP" = 0) (hsp : 256 ≤ st.ram 0) :
    (straightRun env (binArithI c) st).ram 0 = st.ram 0 - 1 := by
  have h2 : (0:Int) ≠ st.ram 0 - 1 - 1 := by omega
  simp [binArithI, straightRun, execI, applyDst, evalCmp, hSP, wr, h2]

lemma unArith_delta (env : String → Int) (c : Cmp) (st : St)
    (hSP : env "SP" = 0) (hsp : 256 ≤ st.ram 0) :
    (straightRun env (unArithI c) st).ram 0 = st.ram 0 := by
  have h1 : (0:Int) ≠ st.ram 0 - 1 := by omega
  simp [unArithI, straightRun, execI, applyDst, evalCmp, hSP, wr, h1]

lemma replicate_push0_delta : ∀ (m : Nat) (env : String → Int) (st : St),
    env "SP" = 0 → 256 ≤ st.ram 0 →
    (straightRun env (List.replicate m push0Block).flatten st).ram 0 = st.ram 0 + m := by
  intro m
  induction m with
  | zero => intro env st _ _; simp [straightRun]
  | succ k ih =>
    intro env st hSP hsp
    rw [List.replicate_succ, List.flatten_cons, straightRun_append]
    have h0 : st.ram 0 ≠ 0 := by omega
    have hone := push0Block_delta env st hSP h0
    have hsp' : 256 ≤ (straightRun env push0Block st).ram 0 := by omega
    rw [ih env _ hSP hsp', hone]
    push_cast
    ring

lemma runPC_skip : ∀ (pre : List Instr) (p : List Instr) (env : String → Int)
    (st : St) (pc fuel : Nat) (rest : List Instr),
    p.drop pc = pre ++ rest → (∀ i ∈ pre, noJump i = true) →
    runPC env p (pre.length + fuel) (st, pc) =
      runPC env p fuel (straightRun env pre st, pc + pre.length) := by
  intro pre
  induction pre with
  | nil =>
    intro p env st pc fuel rest _ _
    simp [straightRun]
  | cons i pre' ih =>
    intro p env st pc fuel rest hdrop hnj
    have hget0 : (p.drop pc)[0]? = some i := by rw [hdrop]; simp
    have hget : p[pc]? = some i := by
      rw [List.getElem?_drop] at hget0
      simpa using hget0
    have hdrop' : p.drop (pc + 1) = pre' ++ rest := by
      have h2 : (p.drop pc).drop 1 = p.drop (pc + 1) := List.drop_drop 1 pc p
      rw [hdrop] at h2
      exact h2.symm ▸ rfl
    have hpre' : ∀ x ∈ pre', noJump x = true :=
      fun x hx => hnj x (List.mem_cons_of_mem i hx)
    have hlen : (i :: pre').length + fuel = (pre'.length + fuel) + 1 := by
      simp [List.length_cons]
      omega
    rw [hlen, runPC]
    have hcons : straightRun env (i :: pre') st = straightRun env pre' (execI env st i) := by
      simp [straightRun]
    have hpc : pc + (i :: pre').length = (pc + 1) + pre'.length := by
      simp [List.length_cons]
      omega
    rw [hcons, hpc]
    cases i with
    | ai s =>
        simp only [stepAt, hget]
        exact ih p env _ (pc + 1) fuel rest hdrop' hpre'
    | lbl s =>
        simp only [stepAt, hget]
        exact ih p env _ (pc + 1) fuel rest hdrop' hpre'
    | ci d c j =>
        have hj : j = .jnone := by
          have := hnj (.ci d c j) (List.mem_cons_self _ _)
          cases j <;> simp [noJump] at this <;> rfl
        subst hj
        simp only [stepAt, hget, jumpTaken, if_false, Bool.false_eq_true]
        exact ih p env _ (pc + 1) fuel rest hdrop' hpre'

/-- The comparison block decrements the stack pointer by one on both the
taken and the fall-through path (two operand pops and one result
push). -/
lemma compBlock_delta (env : String → Int) (t e : String) (j : Jmp) (st : St)
    (hSP : env "SP" = 0) (ht : env t = 12) (he : env e = 16)
    (hsp : 256 ≤ st.ram 0) :
    (execBlock env (compBlockI t j e) st).ram 0 = st.ram 0 - 1 := by
  have hlen : (compBlockI t j e).length + 2 = 6 + 13 := by simp [compBlockI]
  rw [execBlock, hlen]
  have hpre1 : (compBlockI t j e).drop 0 =
      [Instr.ai "SP", .ci (some .am) .mMinusOne .jnone, .ci (some .d) .cM .jnone,
       .ci (some .a) .aMinusOne .jnone, .ci (some .d) .mMinusD .jnone, .ai t] ++
      (compBlockI t j e).drop 6 := by rfl
  rw [show (6:Nat) + 13 = [Instr.ai "SP", .ci (some .am) .mMinusOne .jnone,
      .ci (some .d) .cM .jnone, .ci (some .a) .aMinusOne .jnone,
      .ci (some .d) .mMinusD .jnone, .ai t].length + 13 by rfl]
  rw [runPC_skip _ _ env st 0 13 _ hpre1 (by intro i hi; fin_cases hi <;> rfl)]
  have hpc6 : (0:Nat) + [Instr.ai "SP", .ci (some .am) .mMinusOne .jnone,
      .ci (some .d) .cM .jnone, .ci (some .a) .aMinusOne .jnone,
      .ci (some .d) .mMinusD .jnone, .ai t].length = 6 := rfl
  rw [hpc6]
  set st6 := straightRun env
      [Instr.ai "SP", .ci (some .am) .mMinusOne .jnone, .ci (some .d) .cM .jnone,
       .ci (some .a) .aMinusOne .jnone, .ci (some .d) .mMinusD .jnone, .ai t] st with hst6
  have hA6 : st6.A = env t := rfl
  have hram6 : st6.ram = wr st.ram 0 (st.ram 0 - 1) := by
    rw [hst6]
    simp [straightRun, execI, applyDst, evalCmp, hSP]
  have hget6 : (compBlockI t j e)[(6:Nat)]? = some (.ci none .cD j) := rfl
  rw [show (13:Nat) = 12 + 1 from rfl, runPC]
  simp only [stepAt, hget6]
  by_cases hj : jumpTaken j (evalCmp st6 .cD) = true
  · rw [if_pos hj]
    dsimp only [applyDst]
    have htgt : st6.A.toNat = 12 := by rw [hA6, ht]; rfl
    rw [htgt]
    have hdrop12 : (compBlockI t j e).drop 12 =
        [Instr.lbl t, .ai "SP", .ci (some .a) .mMinusOne .jnone,
         .ci (some .m) .negOne .jnone, .lbl e] := rfl
    rw [runPC_straight _ _ env st6 12 12 hdrop12
      (by intro i hi; fin_cases hi <;> rfl) (by norm_num)]
    have h1 : (0:Int) ≠ st.ram 0 - 1 - 1 := by omega
    have h0 : (0:Int) ≠ st.ram 0 := by omega
    simp [straightRun, execI, applyDst, evalCmp, hSP, hram6, wr, h1, h0]
  · rw [if_neg hj]
    dsimp only [applyDst]
    have hdrop7 : (compBlockI t j e).drop (6 + 1) =
        [Instr.ai "SP", .ci (some .a) .mMinusOne .jnone, .ci (some .m) .zero .jnone,
         .ai e] ++ (compBlockI t j e).drop 11 := rfl
    rw [show (12:Nat) = [Instr.ai "SP", .ci (some .a) .mMinusOne .jnone,
        .ci (some .m) .zero .jnone, .ai e].length + 8 from rfl]
    rw [runPC_skip _ _ env st6 (6 + 1) 8 _ hdrop7
      (by intro i hi; fin_cases hi <;> rfl)]
    have hpc11 : (6:Nat) + 1 + [Instr.ai "SP", .ci (some .a) .mMinusOne .jnone,
        .ci (some .m) .zero .jnone, .ai e].length = 11 := rfl
    rw [hpc11]
    set st11 := straightRun env
        [Instr.ai "SP", .ci (some .a) .mMinusOne .jnone, .ci (some .m) .zero .jnone,
         .ai e] st6 with hst11
    have hA11 : st11.A = env e := rfl
    have hram11 : st11.ram = wr st6.ram (st6.ram 0 - 1) 0 := by
      rw [hst11]
      simp [straightRun, execI, applyDst, evalCmp, hSP]
    have hget11 : (compBlockI t j e)[(11:Nat)]? = some (.ci none .zero .jmp) := rfl
    rw [show (8:Nat) = 7 + 1 from rfl, runPC]
    simp only [stepAt, hget11]
    dsimp only [evalCmp, jumpTaken]
    rw [if_pos rfl]
    dsimp only [applyDst]
    have htgt : st11.A.toNat = 16 := by rw [hA11, he]; rfl
    rw [htgt]
    have hdrop16 : (compBlockI t j e).drop 16 = [Instr.lbl e] := rfl
    rw [runPC_straight _ _ env st11 16 7 hdrop16
      (by intro i hi; fin_cases hi <;> rfl) (by norm_num)]
    have h1 : (0:Int) ≠ st.ram 0 - 1 - 1 := by omega
    have h0 : (0:Int) ≠ st.ram 0 := by omega
    simp [straightRun, execI, applyDst, evalCmp, hram11, hram6, wr, h1, h0]

lemma joinCons (a : String) (l : List String) :
    String.join (a :: l) = a ++ String.join l := by
  apply String.ext
  simp [String.join_eq]

lemma renderProg_append (p q : List Instr) :
    renderProg (p ++ q) = renderProg p ++ renderProg q := by
  apply String.ext
  simp [renderProg, String.join_eq]

lemma renderProg_function : ∀ (m : Nat),
    renderProg (List.replicate m push0Block).flatten =
      String.join (List.replicate m "@SP\nA=M\nM=0\n@SP\nM=M+1\n") := by
  intro m
  induction m with
  | zero => rfl
  | succ k ih =>
    rw [List.replicate_succ, List.flatten_cons, renderProg_append,
      List.replicate_succ, joinCons, ih]
    rfl

lemma noJump_pushTail : ∀ i ∈ pushTail, noJump i = true := by
  intro i hi; fin_cases hi <;> rfl

lemma noJump_append (p q : List Instr) (hp : ∀ i ∈ p, noJump i = true)
    (hq : ∀ i ∈ q, noJump i = true) : ∀ i ∈ p ++ q, noJump i = true := by
  intro i hi
  rcases List.mem_append.mp hi with h | h
  · exact hp i h
  · exact hq i h

lemma noJump_functionI (name : String) (k : Int) :
    ∀ i ∈ functionI name k, noJump i = true := by
  intro i hi
  rw [functionI] at hi
  rcases List.mem_cons.mp hi with rfl | hi2
  · rfl
  · obtain ⟨l, hl, hil⟩ := List.mem_flatten.mp hi2
    rw [List.eq_of_mem_replicate hl] at hil
    fin_cases hil <;> rfl

lemma render_arith : ∀ op : String,
    renderProg (arithI op) = translateArithmeticCommand op := by
  intro op
  unfold arithI translateArithmeticCommand
  split_ifs <;> rfl

lemma render_comp : ∀ (op : String) (n : Nat), (op = "eq" ∨ op = "lt" ∨ op = "gt") →
    renderProg (compI op n) = translateComparisonCommand op n := by
  intro op n hop
  rcases hop with h | h | h <;> subst h <;>
    (apply String.ext;
     simp [renderProg, renderInstr, compI, compBlockI, jmpFor, translateComparisonCommand,
       jumpInstructionFor, String.join, renderDst, renderCmp, renderJmp])

lemma render_pushTemplate (base index : String) :
    renderProg (pushSegmentTemplateI base index) = pushSegmentTemplate base index := by
  apply String.ext
  simp [renderProg, renderInstr, pushSegmentTemplateI, pushTail, pushSegmentTemplate,
    String.join, renderDst, renderCmp, renderJmp]

lemma render_pushConstant (index : String) :
    renderProg (pushConstantI index) =
      "@" ++ index ++ "\nD=A\n@SP\nA=M\nM=D\n@SP\nM=M+1\n" := by
  apply String.ext
  simp [renderProg, renderInstr, pushConstantI, pushTail,
    String.join, renderDst, renderCmp, renderJmp]

lemma render_pushStatic (fn index : String) :
    renderProg (pushStaticI fn index) =
      "@" ++ fn ++ "." ++ index ++ "\nD=M\n@SP\nA=M\nM=D\n@SP\nM=M+1\n" := by
  apply String.ext
  simp [renderProg, renderInstr, pushStaticI, pushTail,
    String.join, renderDst, renderCmp, renderJmp]

lemma render_pushTemp (k : Int) :
    renderProg (pushTempI k) =
      "@R" ++ toString (5 + k) ++ "\nD=M\n@SP\nA=M\nM=D\n@SP\nM=M+1\n" := by
  apply String.ext
  simp [renderProg, renderInstr, pushTempI, pushTail,
    String.join, renderDst, renderCmp, renderJmp]

lemma render_popViaR13 (base index : String) :
    renderProg (popViaR13I base index) = popViaR13 base index := by
  apply String.ext
  simp [renderProg, renderInstr, popViaR13I, popTail, popViaR13,
    String.join, renderDst, renderCmp, renderJmp]

lemma render_popTemp (k : Int) :
    renderProg (popTempI k) =
      "@5\nD=A\n@" ++ toString k ++ "\nD=D+A\n@R13\nM=D\n@SP\nAM=M-1\nD=M\n@R13\nA=M\nM=D\n" := by
  apply String.ext
  simp [renderProg, renderInstr, popTempI, popTail,
    String.join, renderDst, renderCmp, renderJmp]

lemma render_popStatic (fn : String) (k : Int) :
    renderProg (popStaticI fn k) =
      "@SP\nAM=M-1\nD=M\n@" ++ fn ++ "." ++ toString k ++ "\nM=D\n" := by
  apply String.ext
  simp [renderProg, renderInstr, popStaticI,
    String.join, renderDst, renderCmp, renderJmp]

lemma render_function (name : String) (k : Int) :
    translateFunctionCommand name k = .ok (renderProg (functionI name k)) := by
  rw [functionI, show (Instr.lbl name :: (List.replicate k.toNat push0Block).flatten) =
      [Instr.lbl name] ++ (List.replicate k.toNat push0Block).flatten from rfl,
    renderProg_append, renderProg_function]
  rfl

/-- C5: stack-effect invariant.  For every successfully translated
command the emitted block changes the virtual stack depth — `ram 0`, the
SP cell — by exactly the documented delta, whatever the operand values:
−1 for the binary arithmetic/logical ops and for the comparisons, 0 for
neg/not, +1 for every push, −1 for every pop, and +k for
`function <f> <k>`.  Each group pairs the emitted text with its
instruction-level block (`renderProg` equations against the source
emitters) and the block's effect under the machine semantics; the
environment hypotheses pin the assembler facts the block relies on
(`SP` at address 0, `R13` at 13, numeric literals denoting themselves,
branch labels at their in-block positions, and pop targets distinct from
the SP cell). -/
theorem stack_effect_per_command :
    (∀ op : String, (op = "add" ∨ op = "sub" ∨ op = "and" ∨ op = "or") →
      renderProg (arithI op) = translateArithmeticCommand op ∧
      ∀ (env : String → Int) (st : St), env "SP" = 0 → 256 ≤ st.ram 0 →
        (execBlock env (arithI op) st).ram 0 = st.ram 0 - 1) ∧
    (∀ op : String, (op = "neg" ∨ op = "not") →
      renderProg (arithI op) = translateArithmeticCommand op ∧
      ∀ (env : String → Int) (st : St), env "SP" = 0 → 256 ≤ st.ram 0 →
        (execBlock env (arithI op) st).ram 0 = st.ram 0) ∧
    (∀ (op : String) (n : Nat), (op = "eq" ∨ op = "lt" ∨ op = "gt") →
      renderProg (compI op n) = translateComparisonCommand op n ∧
      ∀ (env : String → Int) (st : St), env "SP" = 0 →
        env (compTrueLabel op n) = 12 → env (compEndLabel op n) = 16 →
        256 ≤ st.ram 0 →
        (execBlock env (compI op n) st).ram 0 = st.ram 0 - 1) ∧
    (∀ index : String,
      translatePushCommand "constant" index fileName =
        .ok (renderProg (pushConstantI index)) ∧
      translatePushCommand "local" index fileName =
        .ok (renderProg (pushSegmentTemplateI "LCL" index)) ∧
      translatePushCommand "argument" index fileName =
        .ok (renderProg (pushSegmentTemplateI "ARG" index)) ∧
      translatePushCommand "this" index fileName =
        .ok (renderProg (pushSegmentTemplateI "THIS" index)) ∧
      translatePushCommand "that" index fileName =
        .ok (renderProg (pushSegmentTemplateI "THAT" index)) ∧
      translatePushCommand "static" index fileName =
        .ok (renderProg (pushStaticI fileName index)) ∧
      (∀ k : Int, atoi index = some k →
        translatePushCommand "temp" index fileName =
          .ok (renderProg (pushTempI k))) ∧
      (index = "0" → translatePushCommand "pointer" index fileName =
        .ok (renderProg (pushPointerI "THIS"))) ∧
      (index = "1" → translatePushCommand "pointer" index fileName =
        .ok (renderProg (pushPointerI "THAT")))) ∧
    (∀ (base index : String) (k : Int) (env : String → Int) (st : St),
      env "SP" = 0 → 256 ≤ st.ram 0 →
      (execBlock env (pushConstantI index) st).ram 0 = st.ram 0 + 1 ∧
      (execBlock env (pushSegmentTemplateI base index) st).ram 0 = st.ram 0 + 1 ∧
      (execBlock env (pushStaticI fileName index) st).ram 0 = st.ram 0 + 1 ∧
      (execBlock env (pushTempI k) st).ram 0 = st.ram 0 + 1 ∧
      (execBlock env (pushPointerI base) st).ram 0 = st.ram 0 + 1) ∧
    (∀ index : String,
      translatePopCommand "local" index fileName =
        .ok (renderProg (popViaR13I "LCL" index)) ∧
      translatePopCommand "argument" index fileName =
        .ok (renderProg (popViaR13I "ARG" index)) ∧
      translatePopCommand "this" index fileName =
        .ok (renderProg (popViaR13I "THIS" index)) ∧
      translatePopCommand "that" index fileName =
        .ok (renderProg (popViaR13I "THAT" index)) ∧
      (∀ k : Int, atoi index = some k →
        translatePopCommand "temp" index fileName =
          .ok (renderProg (popTempI k)) ∧
        translatePopCommand "static" index fileName =
          .ok (renderProg (popStaticI fileName k))) ∧
      (index = "0" → translatePopCommand "pointer" index fileName =
        .ok (renderProg (popPointerI "THIS"))) ∧
      (index = "1" → translatePopCommand "pointer" index fileName =
        .ok (renderProg (popPointerI "THAT")))) ∧
    (∀ (base index sym : String) (k : Int) (env : String → Int) (st : St),
      env "SP" = 0 → env "R13" = 13 → 256 ≤ st.ram 0 →
      (st.ram (env base) + env index ≠ 0 →
        (execBlock env (popViaR13I base index) st).ram 0 = st.ram 0 - 1) ∧
      (env "5" = 5 → env (toString k) = k → (5:Int) + k ≠ 0 →
        (execBlock env (popTempI k) st).ram 0 = st.ram 0 - 1) ∧
      (env sym ≠ 0 →
        (execBlock env (popPointerI sym) st).ram 0 = st.ram 0 - 1) ∧
      (env (fileName ++ "." ++ toString k) ≠ 0 →
        (execBlock env (popStaticI fileName k) st).ram 0 = st.ram 0 - 1)) ∧
    (∀ (name : String) (k : Int),
      translateFunctionCommand name k = .ok (renderProg (functionI name k)) ∧
      ∀ (env : String → Int) (st : St), env "SP" = 0 → 256 ≤ st.ram 0 →
        (execBlock env (functionI name k) st).ram 0 = st.ram 0 + k.toNat) := by
  refine ⟨?_, ?_, ?_, ?_, ?_, ?_, ?_, ?_⟩
  · intro op hop
    refine ⟨render_arith op, fun env st hSP hsp => ?_⟩
    rcases hop with rfl | rfl | rfl | rfl <;>
      (rw [execBlock_straight _ _ _ (by intro i hi; fin_cases hi <;> rfl)];
       exact binArith_delta env _ st hSP hsp)
  · intro op hop
    refine ⟨render_arith op, fun env st hSP hsp => ?_⟩
    rcases hop with rfl | rfl <;>
      (rw [execBlock_straight _ _ _ (by intro i hi; fin_cases hi <;> rfl)];
       exact unArith_delta env _ st hSP hsp)
  · intro op n hop
    exact ⟨render_comp op n hop,
      fun env st hSP ht he hsp => compBlock_delta env _ _ _ st hSP ht he hsp⟩
  · intro index
    refine ⟨?_, ?_, ?_, ?_, ?_, ?_, fun k hk => ?_, fun h => ?_, fun h => ?_⟩
    · rw [render_pushConstant]
      rfl
    · rw [render_pushTemplate]
      rfl
    · rw [render_pushTemplate]
      rfl
    · rw [render_pushTemplate]
      rfl
    · rw [render_pushTemplate]
      rfl
    · rw [render_pushStatic]
      rfl
    · rw [render_pushTemp]
      simp [translatePushCommand, hk]
    · subst h; rfl
    · subst h; rfl
  · intro base index k env st hSP hsp
    have h0 : st.ram 0 ≠ 0 := by omega
    refine ⟨?_, ?_, ?_, ?_, ?_⟩
    · rw [execBlock_straight env (pushConstantI index) st (noJump_append _ _
        (by intro i hi; fin_cases hi <;> rfl) noJump_pushTail)]
      exact push_block_delta env [.ai index, .ci (some .d) .cA .jnone] st
        (by intro i hi; fin_cases hi <;> rfl) hSP h0
    · rw [execBlock_straight env (pushSegmentTemplateI base index) st (noJump_append _ _
        (by intro i hi; fin_cases hi <;> rfl) noJump_pushTail)]
      exact push_block_delta env
        [.ai base, .ci (some .d) .cM .jnone, .ai index, .ci (some .a) .dPlusA .jnone,
         .ci (some .d) .cM .jnone] st
        (by intro i hi; fin_cases hi <;> rfl) hSP h0
    · rw [execBlock_straight env (pushStaticI fileName index) st (noJump_append _ _
        (by intro i hi; fin_cases hi <;> rfl) noJump_pushTail)]
      exact push_block_delta env
        [.ai (fileName ++ "." ++ index), .ci (some .d) .cM .jnone] st
        (by intro i hi; fin_cases hi <;> rfl) hSP h0
    · rw [execBlock_straight env (pushTempI k) st (noJump_append _ _
        (by intro i hi; fin_cases hi <;> rfl) noJump_pushTail)]
      exact push_block_delta env
        [.ai ("R" ++ toString (5 + k)), .ci (some .d) .cM .jnone] st
        (by intro i hi; fin_cases hi <;> rfl) hSP h0
    · rw [execBlock_straight env (pushPointerI base) st (noJump_append _ _
        (by intro i hi; fin_cases hi <;> rfl) noJump_pushTail)]
      exact push_block_delta env [.ai base, .ci (some .d) .cM .jnone] st
        (by intro i hi; fin_cases hi <;> rfl) hSP h0
  · intro index
    refine ⟨?_, ?_, ?_, ?_, fun k hk => ⟨?_, ?_⟩, fun h => ?_, fun h => ?_⟩
    · rw [render_popViaR13]
      rfl
    · rw [render_popViaR13]
      rfl
    · rw [render_popViaR13]
      rfl
    · rw [render_popViaR13]
      rfl
    · rw [render_popTemp]
      simp [translatePopCommand, hk]
    · rw [render_popStatic]
      simp [translatePopCommand, hk]
    · subst h; rfl
    · subst h; rfl
  · intro base index sym k env st hSP hR hsp
    refine ⟨fun hT => ?_, fun h5 hIx hT => ?_, fun hsym => ?_, fun hsym => ?_⟩
    · rw [execBlock_straight env (popViaR13I base index) st (noJump_append _ _
        (by intro i hi; fin_cases hi <;> rfl) (by intro i hi; fin_cases hi <;> rfl))]
      exact popViaR13_delta env base index st hSP hR hT
    · rw [execBlock_straight env (popTempI k) st (noJump_append _ _
        (by intro i hi; fin_cases hi <;> rfl) (by intro i hi; fin_cases hi <;> rfl))]
      exact popTemp_delta env k st hSP hR h5 hIx hT
    · rw [execBlock_straight env (popPointerI sym) st
        (by intro i hi; fin_cases hi <;> rfl)]
      exact popDirect_delta env sym st hSP hsym
    · rw [execBlock_straight env (popStaticI fileName k) st
        (by intro i hi; fin_cases hi <;> rfl)]
      exact popDirect_delta env (fileName ++ "." ++ toString k) st hSP hsym
  · intro name k
    refine ⟨render_function name k, fun env st hSP hsp => ?_⟩
    rw [execBlock_straight _ _ _ (noJump_functionI name k)]
    exact replicate_push0_delta k.toNat env st hSP hsp

/-- Witness for C5 at concrete blocks, environment and state. -/
theorem stack_effect_per_command_witness :
    (execBlock wEnv (arithI "add") wSt).ram 0 = wSt.ram 0 - 1 ∧
    (execBlock wEnv (arithI "neg") wSt).ram 0 = wSt.ram 0 ∧
    (execBlock wEnv (compI "eq" 0) wSt).ram 0 = wSt.ram 0 - 1 ∧
    translatePushCommand "local" "3" fileName =
      .ok (renderProg (pushSegmentTemplateI "LCL" "3")) ∧
    (execBlock wEnv (pushSegmentTemplateI "LCL" "3") wSt).ram 0 = wSt.ram 0 + 1 ∧
    (execBlock wEnv (popViaR13I "LCL" "3") wSt).ram 0 = wSt.ram 0 - 1 ∧
    (execBlock wEnv (popTempI 3) wSt).ram 0 = wSt.ram 0 - 1 ∧
    (execBlock wEnv (functionI "Foo" 2) wSt).ram 0 = wSt.ram 0 + (2:Int).toNat :=
  ⟨(stack_effect_per_command.1 "add" (Or.inl rfl)).2 wEnv wSt rfl (by decide),
   (stack_effect_per_command.2.1 "neg" (Or.inl rfl)).2 wEnv wSt rfl (by decide),
   (stack_effect_per_command.2.2.1 "eq" 0 (Or.inl rfl)).2 wEnv wSt rfl rfl rfl (by decide),
   (stack_effect_per_command.2.2.2.1 "3").2.1,
   (stack_effect_per_command.2.2.2.2.1 "LCL" "3" 3 wEnv wSt rfl (by decide)).2.1,
   (stack_effect_per_command.2.2.2.2.2.2.1 "LCL" "3" "THIS" 3 wEnv wSt rfl rfl
     (by decide)).1 (by decide),
   (stack_effect_per_command.2.2.2.2.2.2.1 "LCL" "3" "THIS" 3 wEnv wSt rfl rfl
     (by decide)).2.1 rfl rfl (by decide),
   (stack_effect_per_command.2.2.2.2.2.2.2 "Foo" 2).2 wEnv wSt rfl (by decide)⟩
